import Mathlib

/-
  Verification of the wa-agents conversation engine.

  Shallow embedding conventions:
  * ISO-8601 UTC timestamp strings are represented by their parsed value in
    microseconds since the epoch (`Nat`).  `sofia_utils.stamps.utc_iso_to_dt`
    returns a datetime or `None`; a field of type `Option Nat` is `none` when
    the stored string is absent or unparseable.
  * `datetime.replace(microsecond = 0)` followed by `isoformat` with the `Z`
    suffix stores the timestamp truncated to whole seconds; in this model the
    stored value is `truncSec` of the original.
  * `datetime.now(timezone.utc)` is passed explicitly as a `now : Nat`
    parameter.
  * Object-store state is passed explicitly; every write returns the new store.
-/

-- ==========================================================================
-- Association-list helpers (model of keyed JSON documents in the bucket)
-- ==========================================================================

/-- Look up the value stored under key `k` (first match). -/
def getA {κ α : Type} [DecidableEq κ] (l : List (κ × α)) (k : κ) : Option α :=
  (l.find? (fun p => decide (p.1 = k))).map (fun p => p.2)

/-- Overwrite the value under key `k`, or append it when absent
    (model of an object-store PUT). -/
def putA {κ α : Type} [DecidableEq κ] (l : List (κ × α)) (k : κ) (v : α) :
    List (κ × α) :=
  if (l.find? (fun p => decide (p.1 = k))).isSome then
    l.map (fun p => if p.1 = k then (k, v) else p)
  else
    l ++ [(k, v)]

-- ==========================================================================
-- Time model
-- ==========================================================================

/-- One second in the microsecond time scale. -/
def usPerSec : Nat := 1000000

/-- `datetime.replace(microsecond = 0)`: truncation to whole seconds. -/
def truncSec (t : Nat) : Nat := t / usPerSec * usPerSec

/-- Largest element of a list of naturals (`0` for the empty list). -/
def maxList (l : List Nat) : Nat := l.foldl max 0

-- ==========================================================================
-- Domain model: stored messages and the case manifest (basemodels.py)
-- ==========================================================================

/-- Media metadata persisted inside a message document (`MediaData`). -/
structure MediaDataM where
  mime : String
  name : String
  sha256 : Option String := none
  size : Option Nat := none
deriving DecidableEq, Repr

/-- Raw media payload (`MediaContent`); bytes are modelled as `List Nat`. -/
structure MediaContentM where
  mime : String
  content : List Nat
deriving DecidableEq, Repr

/--
Common shape of a persisted domain message (`Message` and its concrete
subclasses).  `basemodel` is the variant tag written by `model_post_init`;
`time_created` / `time_received` hold the parsed value of the stored ISO
strings (`none` when unparseable).
-/
structure StoredMsg where
  basemodel : String
  origin : Option String := none
  case_id : Nat := 0
  idempotency_key : String
  time_created : Option Nat
  time_received : Option Nat
  id : String
  text : Option String := none
  media : Option MediaDataM := none
  choice : Option (String × String) := none
deriving DecidableEq, Repr

/-- The per-case manifest document (`CaseManifest`).  Timestamp fields hold
    the parsed value of the stored strings. -/
structure CaseManifest where
  case_id : Nat
  model : Option String := none
  status : String := "open"
  time_opened : Option Nat := none
  time_last_message : Option Nat := none
  time_closed : Option Nat := none
  message_ids : List String := []
deriving DecidableEq, Repr

-- ==========================================================================
-- Storage layer: manifest append (do_bucket_storage.py, manifest_append)
-- ==========================================================================

/--
The message timestamp used by `manifest_append`:
`utc_iso_to_dt(time_created) or utc_iso_to_dt(time_received) or now` —
the FIRST parseable value of the chain, falling back to the current time.
-/
def msg_time_of (message : StoredMsg) (now : Nat) : Nat :=
  ((message.time_created).orElse (fun _ => message.time_received)).getD now

/--
`DOBucketStorage.manifest_append` restricted to its effect on the manifest
value (the subsequent `manifest_write` is modelled at the store level below):
append `message.id` to `message_ids` when not already present, then bump
`time_last_message` to `msg_time` truncated to whole seconds whenever the
existing value is absent or smaller.
-/
def manifest_append (manifest : CaseManifest) (message : StoredMsg)
    (now : Nat) : CaseManifest :=
  let ids :=
    if manifest.message_ids.contains message.id then manifest.message_ids
    else manifest.message_ids ++ [message.id]
  let existing_last := manifest.time_last_message
  let msg_time := msg_time_of message now
  let time_last :=
    match existing_last with
    | none => some (truncSec msg_time)
    | some l => if l < msg_time then some (truncSec msg_time) else some l
  { manifest with message_ids := ids, time_last_message := time_last }

/--
Modelled from the spec: the spec describes `msg_time` as
`max(created, received, now_utc)`; this definition follows the spec words
(compared against `manifest_append`, which follows the source).
-/
def manifest_append_specModel (manifest : CaseManifest) (message : StoredMsg)
    (now : Nat) : CaseManifest :=
  let ids :=
    if manifest.message_ids.contains message.id then manifest.message_ids
    else manifest.message_ids ++ [message.id]
  let existing_last := manifest.time_last_message
  let msg_time :=
    max (max (message.time_created.getD now) (message.time_received.getD now))
        now
  let time_last :=
    match existing_last with
    | none => some (truncSec msg_time)
    | some l => if l < msg_time then some (truncSec msg_time) else some l
  { manifest with message_ids := ids, time_last_message := time_last }

/-- Folding `manifest_append` over a list of (message, append-time) pairs. -/
def appendAll (m : CaseManifest) (msgs : List (StoredMsg × Nat)) :
    CaseManifest :=
  msgs.foldl (fun acc p => manifest_append acc p.1 p.2) m

-- ==========================================================================
-- Message documents and message_read (do_bucket_storage.py)
-- ==========================================================================

/--
A persisted message document (`messages/<id>.json`): the stored `basemodel`
discriminator, whether the stored dict validates against the class the tag
resolves to, and the rehydrated message (meaningful when the tag names a
concrete message class and the payload validates).
-/
structure MsgDoc where
  basemodel : Option String
  valid : Bool := true
  msg : StoredMsg
deriving DecidableEq, Repr

/-- Exceptions escaping a handler call (modelled abstractly). -/
inductive PyError where
  /-- attribute access on `None` (e.g. `manifest.status` when
      `manifest_load` returned `None`). -/
  | attrError
  /-- `issubclass` applied to a module attribute that is not a class. -/
  | typeError
  /-- pydantic `ValidationError` raised by `model_validate`. -/
  | validationError
  /-- the tag resolved to a pydantic model that is not a concrete message
      class: rehydration either aborts (abstract class, failed validation) or
      produces a foreign object that breaks the context sort on its missing
      time fields.  `context_build` is the only caller of `message_read`, so
      the failure is surfaced at read time in this model. -/
  | foreignModel
deriving DecidableEq, Repr

/-- Concrete subclasses of `Message` defined in basemodels.py — the tags
    `message_read` rehydrates into context messages. -/
def concreteMessageTags : List String :=
  ["UserContentMsg", "UserInteractiveReplyMsg", "ServerTextMsg",
   "ServerInteractiveOptsMsg", "AssistantMsg", "ToolResultsMsg"]

/-- Module attributes of basemodels.py that are pydantic `BaseModel`
    subclasses (or `BaseModel` itself) but not concrete message classes. -/
def otherModelTags : List String :=
  ["BaseModel", "InteractiveOption", "WhatsAppContext", "WhatsAppText",
   "WhatsAppInteractiveReply", "WhatsAppMediaData", "WhatsAppReaction",
   "WhatsAppMsg", "WhatsAppProfile", "WhatsAppContact", "WhatsAppMetaData",
   "WhatsAppValue", "WhatsAppChange_", "WhatsAppChanges", "WhatsAppPayload",
   "UserData", "Message", "BasicMsg", "StructuredDataMsg", "MediaBase",
   "MediaContent", "MediaData", "OutgoingMediaMsg", "ToolCall", "ToolResult",
   "UserMsg", "ServerMsg", "CaseIndex", "CaseManifest"]

/-- Module attributes of basemodels.py that are not classes at all
    (functions, typing forms, `type` aliases, constants): passing them to
    `issubclass` raises `TypeError`.  Module dunder attributes (strings,
    dicts, loader objects) behave the same way. -/
def nonClassAttrTags : List String :=
  ["abstractmethod", "guess_type", "model_validator", "Field", "JSON_INDENT",
   "print_ind", "print_sep", "generate_UUID", "get_now_utc_iso", "get_sha256",
   "get_country_and_language", "load_media", "print_validation_errors",
   "NN_Decimal", "NN_int", "NE_str", "NE_list_str", "NE_dict_str",
   "Annotated", "Any", "Literal", "Self"]

/-- Module attributes of basemodels.py that are classes but not `BaseModel`
    subclasses: `issubclass` returns `False` and the document is skipped. -/
def nonModelClassTags : List String :=
  ["ABC", "Decimal", "Path", "ValidationError", "ConfigDict"]

/-- Outcome classes of `getattr(basemodels, tag)` followed by
    `issubclass(…, BaseModel)` in `message_read`. -/
inductive TagKind where
  | message | foreign | raisesTypeErr | dropped
deriving DecidableEq, Repr

/-- Classify a stored `basemodel` tag by what the source module resolves it
    to.  Tags that are not module attributes resolve to `None` and are
    dropped. -/
def tagKind (tag : String) : TagKind :=
  if concreteMessageTags.contains tag then .message
  else if otherModelTags.contains tag then .foreign
  else if nonClassAttrTags.contains tag then .raisesTypeErr
  else if nonModelClassTags.contains tag then .dropped
  else if tag.data.take 2 = ['_', '_'] then .raisesTypeErr
  else .dropped

/--
`DOBucketStorage.message_read`: load the document, read the `basemodel`
discriminator, rehydrate through the class the tag resolves to.  Returns
`none` when the document is absent, the tag is absent or empty, or the tag
resolves to `None` or to a non-model class; raises when the tag names a
non-class module attribute or a non-message model class, or when
validation fails.
-/
def message_read (docs : List (String × MsgDoc)) (message_id : String) :
    Except PyError (Option StoredMsg) :=
  match getA docs message_id with
  | none => .ok none
  | some doc =>
    match doc.basemodel with
    | none => .ok none
    | some tag =>
      if tag = "" then .ok none
      else
        match tagKind tag with
        | .message =>
            if doc.valid then .ok (some doc.msg) else .error .validationError
        | .foreign => .error .foreignModel
        | .raisesTypeErr => .error .typeError
        | .dropped => .ok none

-- ==========================================================================
-- Per-user persisted state (key layout of do_bucket_storage.py)
-- ==========================================================================

/--
All documents stored under `<operator_id>/<user_id>/`:
  * `case_index` — `case_index.json` (`none` = file absent; `some v` = file
    present with `open_case_id = v`);
  * `manifests`  — `cases/<cid>/case_manifest.json` per case id;
  * `msgs`       — `cases/<cid>/messages/<message_id>.json` per case id;
  * `media`      — filenames under `cases/<cid>/media/`;
  * `dedup`      — idempotency keys with a marker under `dedup/`.
-/
structure UserStore where
  case_index : Option (Option Nat) := none
  manifests : List (Nat × CaseManifest) := []
  msgs : List (Nat × List (String × MsgDoc)) := []
  media : List (Nat × List String) := []
  dedup : List String := []
deriving DecidableEq, Repr

/-- `DOBucketStorage.manifest_write` for a given case id. -/
def manifest_write (s : UserStore) (cid : Nat) (m : CaseManifest) :
    UserStore :=
  { s with manifests := putA s.manifests cid m }

/-- `DOBucketStorage.dedup_exists`. -/
def dedup_exists (s : UserStore) (idempotency_key : String) : Bool :=
  s.dedup.contains idempotency_key

/-- `DOBucketStorage.dedup_write` (PUT of a marker object). -/
def dedup_write (s : UserStore) (idempotency_key : String) : UserStore :=
  { s with dedup := s.dedup ++ [idempotency_key] }

/-- `DOBucketStorage.message_write` under case `cid`: documents written by
    this system carry their variant tag and validate on re-read. -/
def message_write (s : UserStore) (cid : Nat) (message : StoredMsg) :
    UserStore :=
  let inner := (getA s.msgs cid).getD []
  { s with
    msgs := putA s.msgs cid
      (putA inner message.id
        { basemodel := some message.basemodel, valid := true, msg := message }) }

/-- `DOBucketStorage.media_write`: write bytes only if the key is absent. -/
def media_write (s : UserStore) (cid : Nat) (filename : String) : UserStore :=
  let inner := (getA s.media cid).getD []
  if inner.contains filename then s
  else { s with media := putA s.media cid (inner ++ [filename]) }

/-- First-level directory names under `cases/` (a directory exists when any
    object lies beneath it; non-numeric names are filtered out by the
    source's `isdigit` check and are not modelled). -/
def caseDirs (s : UserStore) : List Nat :=
  s.manifests.map Prod.fst ++ s.msgs.map Prod.fst ++ s.media.map Prod.fst

/-- `DOBucketStorage.get_next_case_id`: `max + 1` over the numeric case
    directories, or `1` when there are none. -/
def get_next_case_id (s : UserStore) : Nat :=
  let max_id := maxList (caseDirs s)
  if max_id > 0 then max_id + 1 else 1

-- ==========================================================================
-- Case handler (casehandlerbase.py)
-- ==========================================================================

/-- `CaseHandlerBase.MAX_CONTEXT_LEN`. -/
def MAX_CONTEXT_LEN : Nat := 20

/-- `CaseHandlerBase.TIME_LIMIT_STALE` (hours). -/
def TIME_LIMIT_STALE : Nat := 48

/-- The staleness limit in the microsecond time scale
    (`timedelta(hours = TIME_LIMIT_STALE)`). -/
def staleLimit : Nat := TIME_LIMIT_STALE * 3600 * usPerSec

/-- `CaseHandlerBase.case_open_new`: allocate the next case id, write a fresh
    manifest (status `open`, `time_opened = now`), point the case index at
    it. -/
def case_open_new (s : UserStore) (now : Nat) :
    Nat × CaseManifest × UserStore :=
  let cid := get_next_case_id s
  let manifest : CaseManifest := { case_id := cid, time_opened := some now }
  let s1 := manifest_write s cid manifest
  let s2 := { s1 with case_index := some (some cid) }
  (cid, manifest, s2)

/--
`CaseHandlerBase.case_decide`.  Reads the case index; a missing file, a
missing key or a falsy id (`None` or `0`) opens a new case.  Otherwise the
manifest is loaded — when the manifest document is absent, `manifest_load`
returns `None` and the following `manifest.status` access raises
`AttributeError`.  A non-open manifest opens a new case.  Staleness is
measured from `utc_iso_to_dt(time_last_message) or utc_iso_to_dt(time_opened)
or now` — the first parseable value, not a maximum.
-/
def case_decide (s : UserStore) (now : Nat) :
    Except PyError (Nat × CaseManifest × UserStore) :=
  let index : Option Nat :=
    match s.case_index with
    | some v => v
    | none => none
  match index with
  | none => .ok (case_open_new s now)
  | some 0 => .ok (case_open_new s now)
  | some cid =>
    match getA s.manifests cid with
    | none => .error .attrError
    | some manifest =>
      if manifest.status ≠ "open" then .ok (case_open_new s now)
      else
        let last :=
          ((manifest.time_last_message).orElse
            (fun _ => manifest.time_opened)).getD now
        if now - last > staleLimit then
          let s1 := manifest_write s cid { manifest with status := "timeout" }
          .ok (case_open_new s1 now)
        else
          .ok (manifest.case_id, manifest, s)

/--
`CaseHandlerBase.context_update` (the lock around the critical section always
acquires in this single-writer model): write the message document, append it
to the manifest and rewrite the manifest, then write the dedup marker when
the idempotency key is truthy.
-/
def context_update (s : UserStore) (cid : Nat) (manifest : CaseManifest)
    (message : StoredMsg) (now : Nat) : UserStore :=
  let s1 := message_write s cid message
  let s2 := manifest_write s1 cid (manifest_append manifest message now)
  if message.idempotency_key ≠ "" then dedup_write s2 message.idempotency_key
  else s2

-- ==========================================================================
-- Inbound WhatsApp message model and ingestion (casehandlerbase.py)
-- ==========================================================================

/-- Media payload inside an inbound WhatsApp message (`WhatsAppMediaData`,
    first present of image/video/audio/sticker — the `media_data`
    property). -/
structure WAMediaData where
  id : String
  mime_type : String
  sha256 : String
  caption : Option String := none
deriving DecidableEq, Repr

/-- Inbound `WhatsAppMsg` as consumed by `dedup_and_ingest_message`:
    `timestamp` is the unix-seconds value carried as a string, `text` the
    `text.body`, `interactive` the `(id, title)` of the chosen option. -/
structure WAMsg where
  id : String
  timestamp : Nat
  text : Option String := none
  media_data : Option WAMediaData := none
  interactive : Option (String × String) := none
deriving DecidableEq, Repr

/-- The normalized `time_received` string used to derive a message id
    (`T`→`_`, `:`→`-`, `.`→`-`, `Z` stripped); timestamps are abstract
    microsecond values here, rendered injectively. -/
def normTime (t : Nat) : String := toString t

/-- `Message.model_post_init`: `id = <normalized time_received>_<basemodel>`. -/
def mkMsgId (time_received : Nat) (basemodel : String) : String :=
  normTime time_received ++ "_" ++ basemodel

/-- `MediaBase.extension`: the MIME subtype after the slash. -/
def mimeExt (mime : String) : String := (mime.splitOn "/").getD 1 ""

/-- Models the hex sha256 digest of the content bytes. -/
def sha256model (content : List Nat) : String := "sha256-" ++ toString content

/-- `MediaData.from_content`: metadata derived from the fetched bytes (the
    placeholder `name` is overwritten by `UserContentMsg.model_post_init`). -/
def mediaData_from_content (mc : MediaContentM) : MediaDataM :=
  { mime := mc.mime,
    name := "ModelMetaclass",
    sha256 := some (sha256model mc.content),
    size := some mc.content.length }

/-- `unix_to_utc_iso` then `utc_iso_to_dt`: unix seconds to the microsecond
    scale. -/
def unixToMicros (seconds : Nat) : Nat := seconds * usPerSec

/--
Construction of the `UserContentMsg` persisted by ingestion:
`idempotency_key` is the inbound message id, `time_created` the converted
inbound timestamp, `time_received` defaults to now, the id is derived from
`time_received`, and an attached media is renamed to `<id>.<ext>`.
-/
def mkUserContentMsg (cid : Nat) (wa : WAMsg) (text : Option String)
    (media : Option MediaDataM) (now : Nat) : StoredMsg :=
  let bm := "UserContentMsg"
  let mid := mkMsgId now bm
  { basemodel := bm,
    origin := some "CaseHandlerBase/dedup_and_ingest_message",
    case_id := cid,
    idempotency_key := wa.id,
    time_created := some (unixToMicros wa.timestamp),
    time_received := some now,
    id := mid,
    text := text,
    media := media.map (fun md => { md with name := mid ++ "." ++ mimeExt md.mime }) }

/-- Construction of the `UserInteractiveReplyMsg` persisted by ingestion. -/
def mkUserInteractiveReplyMsg (cid : Nat) (wa : WAMsg)
    (choice : String × String) (now : Nat) : StoredMsg :=
  let bm := "UserInteractiveReplyMsg"
  { basemodel := bm,
    origin := some "CaseHandlerBase/dedup_and_ingest_message",
    case_id := cid,
    idempotency_key := wa.id,
    time_created := some (unixToMicros wa.timestamp),
    time_received := some now,
    id := mkMsgId now bm,
    choice := some choice }

/-- The mapping step of `dedup_and_ingest_message`: text or media become a
    `UserContentMsg` (media without fetched bytes raises in
    `MediaData.from_content`), an interactive reply becomes a
    `UserInteractiveReplyMsg`, anything else maps to `None`. -/
def ingest_build_msg (cid : Nat) (wa : WAMsg)
    (media_content : Option MediaContentM) (now : Nat) :
    Except PyError (Option StoredMsg) :=
  if wa.text.isSome || wa.media_data.isSome then
    match wa.text with
    | some body => .ok (some (mkUserContentMsg cid wa (some body) none now))
    | none =>
      match media_content with
      | none => .error .attrError
      | some mc =>
        .ok (some (mkUserContentMsg cid wa
          (wa.media_data.bind (fun md => md.caption))
          (some (mediaData_from_content mc)) now))
  else
    match wa.interactive with
    | some choice => .ok (some (mkUserInteractiveReplyMsg cid wa choice now))
    | none => .ok none

/--
`CaseHandlerBase.dedup_and_ingest_message`.  An existing dedup marker returns
`None` immediately, before any read or write of the case state.  Otherwise
`case_decide` fixes the target case (with its side effects), the inbound
message is mapped to a domain variant via `ingest_build_msg`, the message is
persisted via `context_update`, and media bytes are written.
-/
def dedup_and_ingest_message (s : UserStore) (wa : WAMsg)
    (media_content : Option MediaContentM) (now : Nat) :
    Except PyError (Option StoredMsg × UserStore) :=
  if dedup_exists s wa.id then .ok (none, s)
  else
    match case_decide s now with
    | .error e => .error e
    | .ok (cid, manifest, s1) =>
      match ingest_build_msg cid wa media_content now with
      | .error e => .error e
      | .ok none => .ok (none, s1)
      | .ok (some msg) =>
        let s2 := context_update s1 cid manifest msg now
        let s3 :=
          match msg.media with
          | some md => media_write s2 cid md.name
          | none => s2
        .ok (some msg, s3)

-- ==========================================================================
-- Context build (casehandlerbase.py, context_build)
-- ==========================================================================

/--
The sort key `(utc_iso_to_dt(time_created), utc_iso_to_dt(time_received))`,
as a boolean lexicographic comparison.  Python's comparison of `None` with a
datetime raises `TypeError`; the order is totalized here with `none` below
`some`, which agrees with the source exactly when every sorted message
carries parseable timestamps.  The `context_build` theorem therefore takes
that parseability as an explicit hypothesis: it asserts nothing about
contexts containing a kept message with an unparseable `time_created` or
`time_received`, where the source's `list.sort` raises.
-/
def keyLe (a b : Option Nat × Option Nat) : Bool :=
  match a.1, b.1 with
  | none, some _ => true
  | some _, none => false
  | none, none =>
    match a.2, b.2 with
    | none, _ => true
    | some _, none => false
    | some x, some y => x ≤ y
  | some c, some d =>
    if c < d then true
    else if d < c then false
    else
      match a.2, b.2 with
      | none, _ => true
      | some _, none => false
      | some x, some y => x ≤ y

/-- The message order used by `self.case_context.sort(key = …)`. -/
def msgLe (a b : StoredMsg) : Prop :=
  keyLe (a.time_created, a.time_received) (b.time_created, b.time_received) = true

instance : DecidableRel msgLe := fun a b => by
  unfold msgLe; infer_instance

/-- Read every message referenced by the manifest, in order, keeping the
    readable ones; the first raised exception aborts the build. -/
def read_all (docs : List (String × MsgDoc)) :
    List String → Except PyError (List StoredMsg)
  | [] => .ok []
  | i :: is =>
    match message_read docs i with
    | .error e => .error e
    | .ok none => read_all docs is
    | .ok (some m) =>
      match read_all docs is with
      | .error e => .error e
      | .ok rest => .ok (m :: rest)

/--
`CaseHandlerBase.context_build` on a decided case: read the referenced
messages, sort them by `(time_created, time_received)` (Python's `list.sort`
is stable; any stable sort for a total preorder produces the same list, so a
stable insertion sort is used), and keep the last `MAX_CONTEXT_LEN` entries
when truncating and the context is longer than that.
-/
def context_build (manifest : CaseManifest) (docs : List (String × MsgDoc))
    (truncate : Bool) : Except PyError (List StoredMsg) :=
  match read_all docs manifest.message_ids with
  | .error e => .error e
  | .ok ctx =>
    let sorted := List.insertionSort msgLe ctx
    if truncate && decide (sorted.length > MAX_CONTEXT_LEN) then
      .ok (sorted.drop (sorted.length - MAX_CONTEXT_LEN))
    else
      .ok sorted

/-- The pure projection of `message_read`: the message kept for the context,
    `none` when the document is absent or skipped (exceptions excluded). -/
def readOpt (docs : List (String × MsgDoc)) (i : String) : Option StoredMsg :=
  match message_read docs i with
  | .ok v => v
  | .error _ => none

/-- The readable messages referenced by a manifest, in manifest order. -/
def context_readable (manifest : CaseManifest)
    (docs : List (String × MsgDoc)) : List StoredMsg :=
  manifest.message_ids.filterMap (readOpt docs)

/-- The readable messages sorted by `(time_created, time_received)`. -/
def context_sorted (manifest : CaseManifest)
    (docs : List (String × MsgDoc)) : List StoredMsg :=
  List.insertionSort msgLe (context_readable manifest docs)

/-- A manifest referencing 25 messages (boundary example of the spec). -/
def exampleManifest25 : CaseManifest :=
  { case_id := 1,
    message_ids := (List.range 25).map (fun i => "m" ++ toString i) }

/-- 25 readable stored messages with distinct timestamps. -/
def exampleDocs25 : List (String × MsgDoc) :=
  (List.range 25).map (fun i =>
    ("m" ++ toString i,
     { basemodel := some "UserContentMsg",
       msg := { basemodel := "UserContentMsg",
                case_id := 1,
                idempotency_key := "k" ++ toString i,
                time_created := some (1000000 * (25 - i)),
                time_received := some i,
                id := "m" ++ toString i,
                text := some ("t" ++ toString i) } }))

-- ==========================================================================
-- Key layout (do_bucket_storage.py) and handler construction partitioning
-- ==========================================================================

/-- Object keys as `pathlib.Path` segment lists. -/
abbrev StoreKey := List String

/-- `DOBucketStorage.dir_user`: `<operator_id>/<user_id>`. -/
def dir_user (operator_id user_id : String) : StoreKey :=
  [operator_id, user_id]

/-- `DOBucketStorage.path_user_data`. -/
def path_user_data (operator_id user_id : String) : StoreKey :=
  dir_user operator_id user_id ++ ["user_data.json"]

/-- `DOBucketStorage.path_case_index`. -/
def path_case_index (operator_id user_id : String) : StoreKey :=
  dir_user operator_id user_id ++ ["case_index.json"]

/-- `DOBucketStorage.dir_dedup` followed by the marker filename. -/
def path_dedup (operator_id user_id key : String) : StoreKey :=
  dir_user operator_id user_id ++ ["dedup", key ++ ".json"]

/-- `DOBucketStorage.path_manifest` for a case id. -/
def path_manifest (operator_id user_id : String) (case_id : Nat) : StoreKey :=
  dir_user operator_id user_id ++ ["cases", toString case_id, "case_manifest.json"]

/-- `DOBucketStorage.path_message` for a case id and message id. -/
def path_message (operator_id user_id : String) (case_id : Nat)
    (message_id : String) : StoreKey :=
  dir_user operator_id user_id ++
    ["cases", toString case_id, "messages", message_id ++ ".json"]

/-- `DOBucketStorage.dir_media` followed by a media filename. -/
def path_media (operator_id user_id : String) (case_id : Nat)
    (filename : String) : StoreKey :=
  dir_user operator_id user_id ++ ["cases", toString case_id, "media", filename]

/-- `value.metadata` of the webhook payload (`WhatsAppMetaData`). -/
structure WhatsAppMetaDataM where
  display_phone_number : String
  phone_number_id : String
deriving DecidableEq, Repr

/-- A webhook contact (`WhatsAppContact`). -/
structure WhatsAppContactM where
  wa_id : String
  profile_name : Option String := none
deriving DecidableEq, Repr

/-- `CaseHandlerBase.__init__` line `self.storage = DOBucketStorage(
    self.operator_num, self.user_id)`: the storage partition key passed as
    `operator_id` is `operator.display_phone_number` (`operator_num`), while
    `operator.phone_number_id` is kept separately for outbound API calls. -/
def handler_storage_operator (operator : WhatsAppMetaDataM) : String :=
  operator.display_phone_number

/-- The user root directory used by a handler built from a webhook payload. -/
def handler_user_root (operator : WhatsAppMetaDataM)
    (user : WhatsAppContactM) : StoreKey :=
  dir_user (handler_storage_operator operator) user.wa_id

/-- The `user_data.json` key used by a handler built from a webhook payload. -/
def handler_path_user_data (operator : WhatsAppMetaDataM)
    (user : WhatsAppContactM) : StoreKey :=
  path_user_data (handler_storage_operator operator) user.wa_id

-- ==========================================================================
-- Queue store (queue_db.py)
-- ==========================================================================

/-- A row of the `incoming_queue` table. -/
structure QueueRow where
  id : Nat
  payload : String
  status : String
  last_error : Option String := none
deriving DecidableEq, Repr

/-- The `incoming_queue` table: rows plus the AUTOINCREMENT cursor. -/
structure QueueDB where
  rows : List QueueRow := []
  next_id : Nat := 1
deriving DecidableEq, Repr

/--
`QueueDB.enqueue`: `INSERT … ON CONFLICT (payload) DO NOTHING` against the
UNIQUE index on `payload`; returns `conn.total_changes > 0` on the fresh
connection, i.e. `true` iff the row was inserted.  A conflicting row of any
status suppresses the insert.
-/
def enqueue (q : QueueDB) (payload : String) : Bool × QueueDB :=
  if q.rows.any (fun r => r.payload = payload) then
    (false, q)
  else
    (true,
     { rows := q.rows ++ [{ id := q.next_id, payload := payload, status := "pending" }],
       next_id := q.next_id + 1 })

-- ==========================================================================
-- User directory lock (do_bucket_lock.py)
-- ==========================================================================

/-- Lock parameters; the source defaults are `timeout = 10.0 s`,
    `poll = 0.05 s`, `ttl = 30.0 s` — times are abstract integral units here
    (the `+ 1.0 s` stale margin becomes `+ staleMargin`). -/
structure LockCfg where
  timeout : Nat := 10000
  poll : Nat := 50
  ttl : Nat := 30000
  staleMargin : Nat := 1000
deriving DecidableEq, Repr

/-- A lease object under `locks/`, with its server `LastModified` stamp. -/
structure LeaseObj where
  key : String
  last_modified : Nat
deriving DecidableEq, Repr

/-- The set of lease objects under the lock directory of one user. -/
structure LockStore where
  objs : List LeaseObj := []
deriving DecidableEq, Repr

/-- `min(objs, key = LastModified)`: the first object attaining the minimal
    stamp (tie-breaking by listing order is a modelling choice; the theorems
    below use distinct stamps). -/
def earliest? : List LeaseObj → Option LeaseObj
  | [] => none
  | o :: os =>
    match earliest? os with
    | none => some o
    | some e => if e.last_modified < o.last_modified then some e else some o

/-- `b3_delete` of one key. -/
def deleteKey (s : LockStore) (key : String) : LockStore :=
  ⟨s.objs.filter (fun o => o.key ≠ key)⟩

/-- The opportunistic stale cleanup of one loop iteration: when the earliest
    lease is older than `ttl + margin`, delete it and re-list. -/
def lockCleanup (cfg : LockCfg) (s : LockStore) (now : Nat) : LockStore :=
  match earliest? s.objs with
  | some e =>
    if now - e.last_modified > cfg.ttl + cfg.staleMargin then deleteKey s e.key
    else s
  | none => s

/--
The acquisition loop of `DOBucketLock.__enter__`, one iteration per fuel
unit: opportunistically delete the earliest lease when stale, acquire when
the earliest lease is ours, raise `TimeoutError` (modelled as `false`) once
the elapsed time exceeds the timeout, else sleep `poll` and retry.  The fuel
passed by `lock_enter` exceeds the number of polls that fit in the timeout,
so the fuel-exhaustion branch is unreachable there.
-/
def acquireLoop (cfg : LockCfg) (key : String) (start : Nat) :
    Nat → LockStore → Nat → Bool × LockStore
  | 0, s, _ => (false, s)
  | fuel + 1, s, now =>
    let s1 := lockCleanup cfg s now
    match earliest? s1.objs with
    | some w =>
      if w.key = key then (true, s1)
      else if now - start > cfg.timeout then (false, s1)
      else acquireLoop cfg key start fuel s1 (now + cfg.poll)
    | none =>
      if now - start > cfg.timeout then (false, s1)
      else acquireLoop cfg key start fuel s1 (now + cfg.poll)

/-- `DOBucketLock.__enter__`: write our lease (server stamps it `now`), then
    contend. -/
def lock_enter (cfg : LockCfg) (key : String) (s : LockStore) (now : Nat) :
    Bool × LockStore :=
  let s1 : LockStore := ⟨s.objs.filter (fun o => o.key ≠ key) ++ [⟨key, now⟩]⟩
  acquireLoop cfg key now (cfg.timeout / cfg.poll + 2) s1 now

/-- Outcome of a `with DOBucketLock(...)` block. -/
inductive LockOutcome (ε : Type) where
  /-- acquired, body returned normally, lease released. -/
  | ok (s : LockStore)
  /-- `TimeoutError` raised inside `__enter__`; `__exit__` never runs. -/
  | timeoutErr (s : LockStore)
  /-- the body raised; `__exit__` ran with `acquired = True`. -/
  | bodyErr (e : ε) (s : LockStore)
deriving DecidableEq, Repr

/--
`with DOBucketLock(prefix): body` — on success or body exception the owner
deletes its own lease in `__exit__`; a `TimeoutError` escapes `__enter__`
before the `with` body is entered, so `__exit__` is not called (and would
skip the delete anyway, since `acquired` is still `False`).
-/
def withLock {ε : Type} (cfg : LockCfg) (key : String) (s : LockStore)
    (now : Nat) (body : LockStore → Option ε × LockStore) : LockOutcome ε :=
  match lock_enter cfg key s now with
  | (true, s1) =>
    match body s1 with
    | (none, s2) => .ok (deleteKey s2 key)
    | (some e, s2) => .bodyErr e (deleteKey s2 key)
  | (false, s1) => .timeoutErr s1

-- ==========================================================================
-- AssistantMsg (basemodels.py)
-- ==========================================================================

/-- A `ToolCall` carried by an assistant message; `input` is a mapping with
    non-empty string keys. -/
structure ToolCallM where
  id : String
  name : String := "tool_name"
  input : Option (List (String × String)) := some []
deriving DecidableEq, Repr

/-- `AssistantMsg` with the inherited `Message`/`BasicMsg` fields. -/
structure AssistantMsgM where
  basemodel : String := "AssistantMsg"
  origin : Option String := none
  idempotency_key : String
  time_created : String
  time_received : String
  id : String
  text : Option String := none
  tool_calls : List ToolCallM := []
  st_output : Option (List (String × String)) := none
  st_out_bm : Option String := none
  agent : Option String := none
  api : Option String := none
  model : Option String := none
  tokens_input : Option Nat := none
  tokens_output : Option Nat := none
  tokens_total : Option Nat := none
  instructions : Option String := none
  context : Option (List String) := none
deriving DecidableEq, Repr

/-- The `NE_str` constraint (`min_length = 2`). -/
def neStr (s : String) : Bool := 2 ≤ s.length

/-- `NE_str | None`: the constraint applies only when the field is set. -/
def neStrOpt : Option String → Bool
  | none => true
  | some s => neStr s

/--
pydantic validation of an `AssistantMsg` at construction: the `NE_str` field
constraints of `Message` and of the optional metadata fields, and the
`ToolCall` field constraints.  `AssistantMsg` declares no model validator —
in particular nothing rejects a message with no text, no tool calls and no
structured output.
-/
def assistantMsg_validate (m : AssistantMsgM) : Bool :=
  neStr m.idempotency_key && neStr m.time_created && neStr m.time_received &&
  neStr m.id && neStrOpt m.origin && neStrOpt m.agent && neStrOpt m.api &&
  neStrOpt m.model && neStrOpt m.instructions &&
  (match m.context with
   | none => true
   | some l => l.all neStr) &&
  m.tool_calls.all (fun tc =>
    neStr tc.id && neStr tc.name &&
    (match tc.input with
     | none => true
     | some kv => kv.all (fun p => neStr p.1)))

/-- Python truthiness of `str | None`. -/
def strTruthy : Option String → Bool
  | none => false
  | some s => !s.isEmpty

/-- Python truthiness of `dict | None`. -/
def dictTruthy : Option (List (String × String)) → Bool
  | none => false
  | some kv => !kv.isEmpty

/-- `AssistantMsg.is_empty`:
    `not bool(self.text or self.tool_calls or self.st_output)`. -/
def is_empty (m : AssistantMsgM) : Bool :=
  !(strTruthy m.text || !m.tool_calls.isEmpty || dictTruthy m.st_output)

-- ==========================================================================
-- Outbound text chunking (whatsapp_functions.py)
-- ==========================================================================

/--
`chunk_text`: a text within the limit is a single chunk; otherwise split at
`len // 2` and recurse on both halves.  For `max_len = 0` and a single
character the source recurses forever; that branch returns the singleton here
to stay total — it is unreachable whenever `1 ≤ max_len`.
-/
def chunk_text (text : List Char) (max_len : Nat) : List (List Char) :=
  if text.length ≤ max_len then [text]
  else if text.length ≤ 1 then [text]
  else
    chunk_text (text.take (text.length / 2)) max_len ++
    chunk_text (text.drop (text.length / 2)) max_len
termination_by text.length
decreasing_by
  · simp only [List.length_take]
    omega
  · simp only [List.length_drop]
    omega

/-- The WhatsApp text-message size limit (default `max_len`). -/
def WA_TEXT_LIMIT : Nat := 4096

/-- `send_whatsapp_text` posts one message per chunk of the default
    chunking; this is the list of message bodies sent, in order. -/
def send_whatsapp_text_bodies (text : List Char) : List (List Char) :=
  chunk_text text WA_TEXT_LIMIT

-- ==========================================================================
-- Helper lemmas
-- ==========================================================================

instance instDecEqExcept {ε α : Type} [DecidableEq ε] [DecidableEq α] :
    DecidableEq (Except ε α) := fun a b =>
  match a, b with
  | .error e, .error f =>
    decidable_of_iff (e = f)
      ⟨fun h => by rw [h], fun h => by cases h; rfl⟩
  | .error _, .ok _ => isFalse (fun h => by cases h)
  | .ok _, .error _ => isFalse (fun h => by cases h)
  | .ok x, .ok y =>
    decidable_of_iff (x = y)
      ⟨fun h => by rw [h], fun h => by cases h; rfl⟩

theorem truncSec_mono {a b : Nat} (h : a ≤ b) : truncSec a ≤ truncSec b :=
  Nat.mul_le_mul_right _ (Nat.div_le_div_right h)

theorem truncSec_max_eq (M t : Nat) :
    (if truncSec M < t then truncSec t else truncSec M) = truncSec (max M t) := by
  rcases le_total M t with hMt | htM
  · rw [Nat.max_eq_right hMt]
    split
    · rfl
    · have h1 : t ≤ truncSec M := by omega
      have h2 : truncSec M ≤ M := Nat.div_mul_le_self M usPerSec
      have h3 : t = M := le_antisymm (h1.trans h2) hMt
      rw [h3]
  · rw [Nat.max_eq_left htM]
    split
    · rename_i hlt
      have h1 : truncSec t ≤ truncSec M := truncSec_mono htM
      have h2 : truncSec M ≤ truncSec t := by
        unfold truncSec at hlt ⊢
        have hpos : 0 < usPerSec := by norm_num [usPerSec]
        have : M / usPerSec ≤ t / usPerSec :=
          (Nat.le_div_iff_mul_le hpos).mpr (by omega)
        exact Nat.mul_le_mul_right _ this
      omega
    · rfl

theorem seed_le_foldl_max (l : List Nat) : ∀ a : Nat, a ≤ l.foldl max a := by
  induction l with
  | nil => intro a; simp
  | cons y ys ih =>
    intro a
    exact le_trans (le_max_left a y) (ih (max a y))

theorem mem_le_foldl_max (l : List Nat) :
    ∀ (a x : Nat), x ∈ l → x ≤ l.foldl max a := by
  induction l with
  | nil => intro a x hx; cases hx
  | cons y ys ih =>
    intro a x hx
    rcases List.mem_cons.mp hx with rfl | hmem
    · exact le_trans (le_max_right a x) (seed_le_foldl_max ys (max a x))
    · exact ih (max a y) x hmem

theorem mem_le_maxList {l : List Nat} {x : Nat} (h : x ∈ l) : x ≤ maxList l :=
  mem_le_foldl_max l 0 x h

theorem getA_cons {κ α : Type} [DecidableEq κ] (p : κ × α)
    (ps : List (κ × α)) (k : κ) :
    getA (p :: ps) k = if p.1 = k then some p.2 else getA ps k := by
  unfold getA
  by_cases h : p.1 = k
  · rw [List.find?_cons_of_pos _ (by simp [h]), if_pos h]
    rfl
  · rw [List.find?_cons_of_neg _ (by simp [h]), if_neg h]

theorem getA_mem_keys {κ α : Type} [DecidableEq κ] {l : List (κ × α)} {k : κ}
    {v : α} (h : getA l k = some v) : k ∈ l.map Prod.fst := by
  unfold getA at h
  rcases hf : l.find? (fun p => decide (p.1 = k)) with _ | p
  · rw [hf] at h; cases h
  · have hp := List.find?_some hf
    have hmem := List.mem_of_find?_eq_some hf
    have : p.1 = k := of_decide_eq_true hp
    exact this ▸ List.mem_map_of_mem Prod.fst hmem

theorem putA_keys_of_mem {κ α : Type} [DecidableEq κ] {l : List (κ × α)}
    {k : κ} (v : α) (h : k ∈ l.map Prod.fst) :
    (putA l k v).map Prod.fst = l.map Prod.fst := by
  unfold putA
  have hfind : (l.find? (fun p => decide (p.1 = k))).isSome := by
    rcases List.mem_map.mp h with ⟨p, hp, hpk⟩
    exact List.find?_isSome.mpr ⟨p, hp, by simp [hpk]⟩
  rw [if_pos hfind, List.map_map]
  apply List.map_congr_left
  intro p _
  by_cases hpk : p.1 = k
  · simp [hpk]
  · simp [hpk]

theorem getA_map_update_ne {κ α : Type} [DecidableEq κ] (l : List (κ × α))
    (k k2 : κ) (v : α) (hne : k2 ≠ k) :
    getA (l.map (fun p => if p.1 = k then (k, v) else p)) k2 = getA l k2 := by
  induction l with
  | nil => rfl
  | cons p ps ih =>
    rw [List.map_cons, getA_cons, getA_cons]
    by_cases hpk : p.1 = k
    · rw [if_pos hpk]
      have h1 : ((k, v) : κ × α).1 = k2 ↔ False := by simp [Ne.symm hne]
      have h2 : p.1 = k2 ↔ False := by simp [hpk, Ne.symm hne]
      simp only [h1, h2, if_false, ih]
    · rw [if_neg hpk]
      by_cases hpk2 : p.1 = k2
      · rw [if_pos hpk2, if_pos hpk2]
      · rw [if_neg hpk2, if_neg hpk2, ih]

theorem getA_append_single_ne {κ α : Type} [DecidableEq κ] (l : List (κ × α))
    (k k2 : κ) (v : α) (hne : k2 ≠ k) :
    getA (l ++ [(k, v)]) k2 = getA l k2 := by
  induction l with
  | nil =>
    rw [List.nil_append, getA_cons]
    simp [Ne.symm hne, getA]
  | cons p ps ih =>
    rw [List.cons_append, getA_cons, getA_cons]
    by_cases hpk2 : p.1 = k2
    · rw [if_pos hpk2, if_pos hpk2]
    · rw [if_neg hpk2, if_neg hpk2, ih]

theorem getA_putA_ne {κ α : Type} [DecidableEq κ] (l : List (κ × α))
    (k k2 : κ) (v : α) (hne : k2 ≠ k) : getA (putA l k v) k2 = getA l k2 := by
  unfold putA
  split
  · exact getA_map_update_ne l k k2 v hne
  · exact getA_append_single_ne l k k2 v hne

theorem findKey_isSome_iff {κ α : Type} [DecidableEq κ] (l : List (κ × α))
    (k : κ) :
    (l.find? (fun p => decide (p.1 = k))).isSome = true ↔ k ∈ l.map Prod.fst := by
  rw [List.find?_isSome]
  constructor
  · rintro ⟨p, hp, hpk⟩
    have hk : p.1 = k := of_decide_eq_true hpk
    exact hk ▸ List.mem_map_of_mem Prod.fst hp
  · intro h
    rcases List.mem_map.mp h with ⟨p, hp, rfl⟩
    exact ⟨p, hp, by simp⟩

theorem getA_map_update_eq {κ α : Type} [DecidableEq κ] (l : List (κ × α))
    (k : κ) (v : α) (h : k ∈ l.map Prod.fst) :
    getA (l.map (fun p => if p.1 = k then (k, v) else p)) k = some v := by
  induction l with
  | nil => cases h
  | cons p ps ih =>
    rw [List.map_cons, getA_cons]
    by_cases hpk : p.1 = k
    · rw [if_pos hpk]
      simp
    · rw [if_neg hpk]
      have hk : k ∈ ps.map Prod.fst := by
        rcases List.mem_map.mp h with ⟨q, hq, rfl⟩
        rcases List.mem_cons.mp hq with rfl | hq2
        · exact absurd rfl hpk
        · exact List.mem_map_of_mem Prod.fst hq2
      simp only [if_neg hpk, ih hk]

theorem getA_putA_eq {κ α : Type} [DecidableEq κ] (l : List (κ × α))
    (k : κ) (v : α) : getA (putA l k v) k = some v := by
  unfold putA
  split
  · rename_i hfound
    exact getA_map_update_eq l k v ((findKey_isSome_iff l k).mp hfound)
  · rename_i hnone
    induction l with
    | nil => simp [getA_cons]
    | cons p ps ih =>
      rw [List.cons_append, getA_cons]
      by_cases hpk : p.1 = k
      · exfalso
        apply hnone
        exact List.find?_isSome.mpr ⟨p, List.mem_cons_self p ps, by simp [hpk]⟩
      · rw [if_neg hpk]
        apply ih
        intro hsome
        apply hnone
        rcases List.find?_isSome.mp hsome with ⟨q, hq, hqk⟩
        exact List.find?_isSome.mpr ⟨q, List.mem_cons_of_mem p hq, hqk⟩

-- ==========================================================================
-- C1: manifest_append
-- ==========================================================================

/--
C1 (counterexample): the source computes `msg_time` as the FIRST parseable
value of `(time_created, time_received, now)`, not their maximum.  For a
message created at 1 s and received at 2 s, `manifest_append` records 1 s
while the claimed `max(created, received, now)` rule records 2 s.
-/
theorem manifest_append_max_cex :
    (manifest_append { case_id := 1, time_opened := some 0 }
        { basemodel := "UserContentMsg", idempotency_key := "k-1",
          time_created := some 1000000, time_received := some 2000000,
          id := "m1" } 0).time_last_message = some 1000000 ∧
    (manifest_append_specModel { case_id := 1, time_opened := some 0 }
        { basemodel := "UserContentMsg", idempotency_key := "k-1",
          time_created := some 1000000, time_received := some 2000000,
          id := "m1" } 0).time_last_message = some 2000000 ∧
    (manifest_append { case_id := 1, time_opened := some 0 }
        { basemodel := "UserContentMsg", idempotency_key := "k-1",
          time_created := some 1000000, time_received := some 2000000,
          id := "m1" } 0).time_last_message ≠
      (manifest_append_specModel { case_id := 1, time_opened := some 0 }
        { basemodel := "UserContentMsg", idempotency_key := "k-1",
          time_created := some 1000000, time_received := some 2000000,
          id := "m1" } 0).time_last_message := by
  decide

theorem manifest_append_ids (manifest : CaseManifest) (message : StoredMsg)
    (now : Nat) :
    (manifest_append manifest message now).message_ids =
      (if message.id ∈ manifest.message_ids then manifest.message_ids
       else manifest.message_ids ++ [message.id]) := by
  simp only [manifest_append]
  by_cases hmem : message.id ∈ manifest.message_ids
  · rw [if_pos (List.elem_eq_true_of_mem hmem), if_pos hmem]
  · rw [if_neg (fun hc => hmem (List.mem_of_elem_eq_true hc)), if_neg hmem]

theorem manifest_append_mem (manifest : CaseManifest) (message : StoredMsg)
    (now : Nat) :
    message.id ∈ (manifest_append manifest message now).message_ids := by
  rw [manifest_append_ids]
  by_cases hmem : message.id ∈ manifest.message_ids
  · rw [if_pos hmem]; exact hmem
  · rw [if_neg hmem]
    exact List.mem_append_right _ (List.mem_singleton.mpr rfl)

theorem appendAll_time (msgs : List (StoredMsg × Nat)) :
    ∀ (m : CaseManifest) (M : Nat),
      m.time_last_message = some (truncSec M) →
      (appendAll m msgs).time_last_message =
        some (truncSec
          (msgs.foldl (fun acc p => max acc (msg_time_of p.1 p.2)) M)) := by
  induction msgs with
  | nil =>
    intro m M h
    simpa [appendAll] using h
  | cons p ps ih =>
    intro m M h
    have hstep :
        (manifest_append m p.1 p.2).time_last_message =
          some (truncSec (max M (msg_time_of p.1 p.2))) := by
      simp only [manifest_append, h]
      rw [← truncSec_max_eq M (msg_time_of p.1 p.2)]
      split
    -- the two sides of the split are definitionally the two if-branches
      · rfl
      · rfl
    have := ih (manifest_append m p.1 p.2) (max M (msg_time_of p.1 p.2)) hstep
    simpa [appendAll, List.foldl_cons] using this

/--
C1 (amended): `manifest_append(m, msg)` appends `msg.id` to `message_ids`
only when not already present (re-appending is a no-op); it computes
`msg_time` as the FIRST parseable value of `(time_created, time_received,
now_utc)` (not their maximum) and, when `time_last_message` is absent or
smaller, stores `msg_time` truncated to whole seconds; all other manifest
fields are untouched.  Consequently `time_last_message` equals the truncated
maximum over all appended messages of that first-parseable time — not of
`max(time_created, time_received)`.
-/
theorem manifest_append_correct :
    (∀ (manifest : CaseManifest) (message : StoredMsg) (now : Nat),
      (manifest_append manifest message now).message_ids =
        (if message.id ∈ manifest.message_ids then manifest.message_ids
         else manifest.message_ids ++ [message.id]) ∧
      message.id ∈ (manifest_append manifest message now).message_ids ∧
      (∀ now2 : Nat,
        (manifest_append (manifest_append manifest message now) message
            now2).message_ids =
          (manifest_append manifest message now).message_ids) ∧
      (manifest_append manifest message now).time_last_message =
        some (match manifest.time_last_message with
              | none => truncSec (msg_time_of message now)
              | some l =>
                if l < msg_time_of message now
                then truncSec (msg_time_of message now) else l) ∧
      (manifest_append manifest message now).status = manifest.status ∧
      (manifest_append manifest message now).case_id = manifest.case_id ∧
      (manifest_append manifest message now).time_opened =
        manifest.time_opened) ∧
    (∀ (m0 : CaseManifest) (msgs : List (StoredMsg × Nat)),
      m0.time_last_message = none → msgs ≠ [] →
      (appendAll m0 msgs).time_last_message =
        some (truncSec
          (maxList (msgs.map (fun p => msg_time_of p.1 p.2))))) := by
  constructor
  · intro manifest message now
    refine ⟨manifest_append_ids manifest message now,
            manifest_append_mem manifest message now, ?_, ?_, rfl, rfl, rfl⟩
    · intro now2
      rw [manifest_append_ids (manifest_append manifest message now) message now2,
          if_pos (manifest_append_mem manifest message now)]
    · simp only [manifest_append]
      cases manifest.time_last_message with
      | none => rfl
      | some l =>
        by_cases hlt : l < msg_time_of message now
        · simp [hlt]
        · simp [hlt]
  · intro m0 msgs h0 hne
    cases msgs with
    | nil => exact absurd rfl hne
    | cons p ps =>
      have hstep :
          (manifest_append m0 p.1 p.2).time_last_message =
            some (truncSec (msg_time_of p.1 p.2)) := by
        simp [manifest_append, h0]
      have hrec := appendAll_time ps (manifest_append m0 p.1 p.2)
        (msg_time_of p.1 p.2) hstep
      have h1 : appendAll m0 (p :: ps) =
          appendAll (manifest_append m0 p.1 p.2) ps := by
        simp [appendAll, List.foldl_cons]
      have h2 : maxList ((p :: ps).map (fun q => msg_time_of q.1 q.2)) =
          ps.foldl (fun acc q => max acc (msg_time_of q.1 q.2))
            (msg_time_of p.1 p.2) := by
        unfold maxList
        rw [List.map_cons, List.foldl_cons, List.foldl_map]
        simp
      rw [h1, hrec, h2]

-- ==========================================================================
-- C2 / C10: case_decide
-- ==========================================================================

theorem caseDirs_manifest_write {s : UserStore} {cid : Nat}
    {m0 m1 : CaseManifest} (h : getA s.manifests cid = some m0) :
    caseDirs (manifest_write s cid m1) = caseDirs s := by
  unfold caseDirs manifest_write
  rw [putA_keys_of_mem m1 (getA_mem_keys h)]

theorem get_next_gt_mem {s : UserStore} {cid : Nat} (hmem : cid ∈ caseDirs s)
    (hpos : cid ≠ 0) : cid < get_next_case_id s := by
  have hle : cid ≤ maxList (caseDirs s) := mem_le_maxList hmem
  unfold get_next_case_id
  have : 0 < maxList (caseDirs s) := by omega
  rw [if_pos this]
  omega

theorem get_next_not_mem (s : UserStore) : get_next_case_id s ∉ caseDirs s := by
  intro hmem
  have hle := mem_le_maxList hmem
  simp only [get_next_case_id] at hle
  split at hle <;> omega

/--
C2 (counterexample): staleness is measured from
`utc_iso_to_dt(time_last_message) or utc_iso_to_dt(time_opened)`, not from
their maximum.  With `time_opened` one hour ago and `time_last_message`
49 hours ago, the claimed `max` rule gives one hour of staleness (≤ 48 h, so
the case should be kept), but the source times the case out and opens case 2.
-/
theorem case_decide_staleness_cex :
    ((case_decide
        { case_index := some (some 1),
          manifests := [(1, { case_id := 1, status := "open",
                              time_opened := some 356400000000,
                              time_last_message := some 183600000000 })] }
        360000000000).toOption.map
      (fun r => (r.1, (getA r.2.2.manifests 1).map (fun m => m.status),
                 r.2.2.case_index)))
      = some (2, some "timeout", some (some 2)) ∧
    360000000000 - max 183600000000 356400000000 ≤ staleLimit := by
  decide

/--
C2 (amended): for a user whose open case has a parseable
`time_last_message`, `case_decide` computes staleness as `now` minus
`time_last_message` (ignoring `time_opened`, which is only the fallback for
an unparseable or absent `time_last_message`); if that exceeds
`TIME_LIMIT_STALE` hours (default 48) it sets the manifest status to
`timeout`, writes the manifest, and opens a new case — in particular a case
whose `time_last_message` is 49 hours in the past transitions to `timeout`
and a fresh case id (never used before) is opened.
-/
theorem case_decide_stale_timeout :
    ∀ (s : UserStore) (now cid t : Nat) (manifest : CaseManifest),
      s.case_index = some (some cid) → cid ≠ 0 →
      getA s.manifests cid = some manifest →
      manifest.status = "open" →
      manifest.time_last_message = some t →
      now - t > staleLimit →
      (case_decide s now =
        .ok (case_open_new
          (manifest_write s cid { manifest with status := "timeout" }) now)) ∧
      (∀ (ncid : Nat) (nm : CaseManifest) (s2 : UserStore),
        case_decide s now = .ok (ncid, nm, s2) →
        getA s2.manifests cid = some { manifest with status := "timeout" } ∧
        s2.case_index = some (some ncid) ∧
        nm.status = "open" ∧ nm.case_id = ncid ∧
        nm.time_opened = some now ∧ nm.message_ids = [] ∧
        cid < ncid ∧ ncid ∉ caseDirs s) := by
  intro s now cid t manifest hidx hcid hman hopen htlm hstale
  obtain ⟨k, rfl⟩ := Nat.exists_eq_succ_of_ne_zero hcid
  have hrun : case_decide s now =
      .ok (case_open_new
        (manifest_write s (k + 1) { manifest with status := "timeout" }) now) := by
    simp only [case_decide, hidx, hman, hopen, htlm]
    simp only [Option.orElse, Option.getD]
    rw [if_neg (by simp), if_pos hstale]
  refine ⟨hrun, ?_⟩
  intro ncid nm s2 hrun2
  rw [hrun] at hrun2
  have heq :
      case_open_new
        (manifest_write s (k + 1) { manifest with status := "timeout" }) now
      = (ncid, nm, s2) := by
    exact Except.ok.inj hrun2
  have hmem : (k + 1) ∈ caseDirs s := by
    unfold caseDirs
    exact List.mem_append_left _
      (List.mem_append_left _ (getA_mem_keys hman))
  have hdirs :
      caseDirs (manifest_write s (k + 1) { manifest with status := "timeout" })
        = caseDirs s :=
    caseDirs_manifest_write hman
  have hncid : ncid =
      get_next_case_id
        (manifest_write s (k + 1) { manifest with status := "timeout" }) := by
    have := congrArg Prod.fst heq
    simpa [case_open_new] using this.symm
  have hlt : k + 1 < ncid := by
    rw [hncid]
    simp only [get_next_case_id]
    rw [hdirs]
    have h1 : k + 1 ≤ maxList (caseDirs s) := mem_le_maxList hmem
    rw [if_pos (by omega)]
    omega
  have hnm : nm = { case_id := ncid, time_opened := some now } := by
    have := congrArg (fun r => r.2.1) heq
    simp only [case_open_new] at this
    rw [← this, hncid]
  have hs2 : s2 =
      { manifest_write
          (manifest_write s (k + 1) { manifest with status := "timeout" })
          ncid { case_id := ncid, time_opened := some now }
        with case_index := some (some ncid) } := by
    have := congrArg (fun r => r.2.2) heq
    simp only [case_open_new] at this
    rw [← this, hncid]
  constructor
  · rw [hs2]
    show getA (putA (putA s.manifests (k + 1) _) ncid _) (k + 1) = _
    rw [getA_putA_ne _ ncid (k + 1) _ (by omega), getA_putA_eq]
  refine ⟨by rw [hs2], by rw [hnm], by rw [hnm], by rw [hnm], by rw [hnm],
          hlt, ?_⟩
  intro hmem2
  have := mem_le_maxList hmem2
  rw [hncid] at this
  simp only [get_next_case_id] at this
  rw [hdirs] at this
  split at this <;> omega

/-- Witness for `case_decide_stale_timeout`: a store whose open case 1 has
    `time_last_message` 49 hours before `now`. -/
theorem case_decide_stale_timeout_witness :
    (case_decide
        { case_index := some (some 1),
          manifests := [(1, { case_id := 1, status := "open",
                              time_opened := some 349200000000,
                              time_last_message := some 183600000000 })] }
        360000000000 =
      .ok (case_open_new
        (manifest_write
          { case_index := some (some 1),
            manifests := [(1, { case_id := 1, status := "open",
                                time_opened := some 349200000000,
                                time_last_message := some 183600000000 })] }
          1
          { case_id := 1, status := "timeout",
            time_opened := some 349200000000,
            time_last_message := some 183600000000 }) 360000000000)) :=
  (case_decide_stale_timeout
    { case_index := some (some 1),
      manifests := [(1, { case_id := 1, status := "open",
                          time_opened := some 349200000000,
                          time_last_message := some 183600000000 })] }
    360000000000 1 183600000000
    { case_id := 1, status := "open",
      time_opened := some 349200000000,
      time_last_message := some 183600000000 }
    rfl (by decide) (by decide) rfl rfl (by decide)).1

/--
C10: when the case index points at a positive case id whose manifest
document is absent, `manifest_load` returns `None` and the following
`manifest.status` access raises `AttributeError`: `case_decide` errors
instead of opening a new case.
-/
theorem case_decide_missing_manifest_error :
    ∀ (s : UserStore) (now cid : Nat),
      s.case_index = some (some cid) → 0 < cid →
      getA s.manifests cid = none →
      case_decide s now = .error .attrError := by
  intro s now cid hidx hpos hman
  obtain ⟨k, rfl⟩ := Nat.exists_eq_succ_of_ne_zero (by omega : cid ≠ 0)
  simp only [case_decide, hidx, hman]

/-- Witness for `case_decide_missing_manifest_error`: index points at case 1,
    no manifest exists. -/
theorem case_decide_missing_manifest_error_witness :
    case_decide { case_index := some (some 1) } 0 = .error .attrError :=
  case_decide_missing_manifest_error { case_index := some (some 1) } 0 1
    rfl (by decide) rfl

-- ==========================================================================
-- C3: dedup_and_ingest_message
-- ==========================================================================

theorem context_update_dedup (s : UserStore) (cid : Nat)
    (manifest : CaseManifest) (msg : StoredMsg) (now : Nat)
    (h : msg.idempotency_key ≠ "") :
    (context_update s cid manifest msg now).dedup =
      s.dedup ++ [msg.idempotency_key] := by
  simp [context_update, dedup_write, manifest_write, message_write, h]

theorem media_write_dedup (s : UserStore) (cid : Nat) (fn : String) :
    (media_write s cid fn).dedup = s.dedup := by
  simp only [media_write]
  split <;> rfl

theorem ingest_build_msg_key :
    ∀ (cid : Nat) (wa : WAMsg) (mc : Option MediaContentM) (now : Nat)
      (msg : StoredMsg),
      ingest_build_msg cid wa mc now = .ok (some msg) →
      msg.idempotency_key = wa.id := by
  intro cid wa mc now msg h
  unfold ingest_build_msg at h
  split at h
  · split at h
    · have hm := Option.some.inj (Except.ok.inj h)
      rw [← hm]; rfl
    · split at h
      · exact absurd h (by simp)
      · have hm := Option.some.inj (Except.ok.inj h)
        rw [← hm]; rfl
  · split at h
    · have hm := Option.some.inj (Except.ok.inj h)
      rw [← hm]; rfl
    · exact absurd h (by simp)

theorem ingest_writes_marker :
    ∀ (s : UserStore) (wa : WAMsg) (mc : Option MediaContentM) (now : Nat)
      (m : StoredMsg) (s1 : UserStore),
      wa.id ≠ "" →
      dedup_and_ingest_message s wa mc now = .ok (some m, s1) →
      dedup_exists s1 wa.id = true := by
  intro s wa mc now m s1 hid hrun
  unfold dedup_and_ingest_message at hrun
  split at hrun
  · exact absurd hrun (by simp)
  · split at hrun
    · exact absurd hrun (by simp)
    · rename_i cid manifest s' heqcd
      split at hrun
      · exact absurd hrun (by simp)
      · exact absurd hrun (by simp)
      · rename_i msgX heqbuilt
        have hkey : msgX.idempotency_key = wa.id :=
          ingest_build_msg_key cid wa mc now msgX heqbuilt
        have hpair := Except.ok.inj hrun
        have hs1 : s1 =
            (match msgX.media with
             | some md =>
               media_write (context_update s' cid manifest msgX now) cid md.name
             | none => context_update s' cid manifest msgX now) := by
          have h2 := congrArg Prod.snd hpair
          simp only at h2
          exact h2.symm
        have hded :
            (match msgX.media with
             | some md =>
               media_write (context_update s' cid manifest msgX now) cid md.name
             | none => context_update s' cid manifest msgX now).dedup =
              s'.dedup ++ [wa.id] := by
          have hkey' : msgX.idempotency_key ≠ "" := by rw [hkey]; exact hid
          cases msgX.media with
          | none => rw [context_update_dedup _ _ _ _ _ hkey', hkey]
          | some md =>
            rw [media_write_dedup, context_update_dedup _ _ _ _ _ hkey', hkey]
        unfold dedup_exists
        rw [hs1, hded]
        exact List.elem_eq_true_of_mem
          (List.mem_append_right _ (List.mem_singleton.mpr rfl))

/--
C3: an inbound WhatsApp message whose id already has a dedup marker is
ignored: `dedup_and_ingest_message` returns `None` before touching any
persisted state.  Consequently a second ingest of a message that was
successfully persisted (the first ingest writes the marker keyed by the
inbound id) returns `None` and leaves the store exactly as the first ingest
left it — one persisted message, one marker, no new manifest entries.
-/
theorem dedup_and_ingest_idempotent :
    (∀ (s : UserStore) (wa : WAMsg) (mc : Option MediaContentM) (now : Nat),
      dedup_exists s wa.id = true →
      dedup_and_ingest_message s wa mc now = .ok (none, s)) ∧
    (∀ (s : UserStore) (wa : WAMsg) (mc mc2 : Option MediaContentM)
       (now now2 : Nat) (m : StoredMsg) (s1 : UserStore),
      wa.id ≠ "" →
      dedup_and_ingest_message s wa mc now = .ok (some m, s1) →
      dedup_and_ingest_message s1 wa mc2 now2 = .ok (none, s1)) := by
  constructor
  · intro s wa mc now h
    unfold dedup_and_ingest_message
    rw [if_pos h]
  · intro s wa mc mc2 now now2 m s1 hid hrun
    have hmarker := ingest_writes_marker s wa mc now m s1 hid hrun
    unfold dedup_and_ingest_message
    rw [if_pos hmarker]

/-- Witness for `dedup_and_ingest_idempotent`: a fresh user ingests the
    text "hi"; re-ingesting the same webhook message id returns `None` and
    leaves the persisted state exactly as the first ingest left it. -/
theorem dedup_and_ingest_idempotent_witness :
    dedup_and_ingest_message
      { case_index := some (some 1),
        manifests := [(1, { case_id := 1, status := "open",
                            time_opened := some 7,
                            time_last_message := some 1700000000000000,
                            message_ids := ["7_UserContentMsg"] })],
        msgs := [(1, [("7_UserContentMsg",
          { basemodel := some "UserContentMsg",
            msg := { basemodel := "UserContentMsg",
                     origin := some "CaseHandlerBase/dedup_and_ingest_message",
                     case_id := 1,
                     idempotency_key := "wamid.A",
                     time_created := some 1700000000000000,
                     time_received := some 7,
                     id := "7_UserContentMsg",
                     text := some "hi" } })])],
        dedup := ["wamid.A"] }
      { id := "wamid.A", timestamp := 1700000000, text := some "hi" }
      none 9 =
      .ok (none,
        { case_index := some (some 1),
          manifests := [(1, { case_id := 1, status := "open",
                              time_opened := some 7,
                              time_last_message := some 1700000000000000,
                              message_ids := ["7_UserContentMsg"] })],
          msgs := [(1, [("7_UserContentMsg",
            { basemodel := some "UserContentMsg",
              msg := { basemodel := "UserContentMsg",
                       origin := some "CaseHandlerBase/dedup_and_ingest_message",
                       case_id := 1,
                       idempotency_key := "wamid.A",
                       time_created := some 1700000000000000,
                       time_received := some 7,
                       id := "7_UserContentMsg",
                       text := some "hi" } })])],
          dedup := ["wamid.A"] }) :=
  dedup_and_ingest_idempotent.2 {}
    { id := "wamid.A", timestamp := 1700000000, text := some "hi" }
    none none 7 9
    { basemodel := "UserContentMsg",
      origin := some "CaseHandlerBase/dedup_and_ingest_message",
      case_id := 1,
      idempotency_key := "wamid.A",
      time_created := some 1700000000000000,
      time_received := some 7,
      id := "7_UserContentMsg",
      text := some "hi" }
    { case_index := some (some 1),
      manifests := [(1, { case_id := 1, status := "open",
                          time_opened := some 7,
                          time_last_message := some 1700000000000000,
                          message_ids := ["7_UserContentMsg"] })],
      msgs := [(1, [("7_UserContentMsg",
        { basemodel := some "UserContentMsg",
          msg := { basemodel := "UserContentMsg",
                   origin := some "CaseHandlerBase/dedup_and_ingest_message",
                   case_id := 1,
                   idempotency_key := "wamid.A",
                   time_created := some 1700000000000000,
                   time_received := some 7,
                   id := "7_UserContentMsg",
                   text := some "hi" } })])],
      dedup := ["wamid.A"] }
    (by decide) (by decide)

-- ==========================================================================
-- C4: storage partitioning of handler state
-- ==========================================================================

/--
C4 (counterexample): `CaseHandlerBase.__init__` passes
`operator.display_phone_number` (`operator_num`) — not
`operator.phone_number_id` — to `DOBucketStorage`, so the persisted user
objects are keyed under the display phone number.  With
`display_phone_number = "15551234567"` and `phone_number_id = "OP1"`, the
user-data key is `15551234567/U1/user_data.json`, not
`OP1/U1/user_data.json`.
-/
theorem storage_key_phone_number_id_cex :
    handler_path_user_data
        { display_phone_number := "15551234567", phone_number_id := "OP1" }
        { wa_id := "U1" }
      = ["15551234567", "U1", "user_data.json"] ∧
    handler_path_user_data
        { display_phone_number := "15551234567", phone_number_id := "OP1" }
        { wa_id := "U1" }
      ≠ ["OP1", "U1", "user_data.json"] := by
  decide

/--
C4 (amended): for every handler constructed from a webhook payload, all
persisted per-user objects are keyed under the operator's
`display_phone_number` (the `phone_number_id` is kept for outbound API
calls): the user root is `<display_phone_number>/<wa_id>` and every
user-partition key — user data, case index, dedup markers, manifests,
messages, media — extends that root.
-/
theorem storage_keys_display_number :
    ∀ (operator : WhatsAppMetaDataM) (user : WhatsAppContactM)
      (cid : Nat) (mid fn key : String),
      handler_user_root operator user =
        [operator.display_phone_number, user.wa_id] ∧
      handler_path_user_data operator user =
        [operator.display_phone_number, user.wa_id, "user_data.json"] ∧
      handler_user_root operator user <+:
        path_case_index (handler_storage_operator operator) user.wa_id ∧
      handler_user_root operator user <+:
        path_dedup (handler_storage_operator operator) user.wa_id key ∧
      handler_user_root operator user <+:
        path_manifest (handler_storage_operator operator) user.wa_id cid ∧
      handler_user_root operator user <+:
        path_message (handler_storage_operator operator) user.wa_id cid mid ∧
      handler_user_root operator user <+:
        path_media (handler_storage_operator operator) user.wa_id cid fn := by
  intro operator user cid mid fn key
  refine ⟨rfl, rfl, ⟨["case_index.json"], rfl⟩,
          ⟨["dedup", key ++ ".json"], rfl⟩,
          ⟨["cases", toString cid, "case_manifest.json"], rfl⟩,
          ⟨["cases", toString cid, "messages", mid ++ ".json"], rfl⟩,
          ⟨["cases", toString cid, "media", fn], rfl⟩⟩

-- ==========================================================================
-- C5: queue enqueue
-- ==========================================================================

/--
C5: `enqueue` inserts the payload with `ON CONFLICT DO NOTHING` against the
UNIQUE index on `payload` and returns `true` iff a row was inserted; a
second `enqueue` of the same payload returns `false` and changes nothing,
and starting from a queue without that payload the two calls leave exactly
one pending row carrying it.
-/
theorem enqueue_unique_payload :
    (∀ (q : QueueDB) (p : String),
      ((enqueue q p).1 = true ↔ ¬ ∃ r ∈ q.rows, r.payload = p) ∧
      (enqueue (enqueue q p).2 p).1 = false ∧
      (enqueue (enqueue q p).2 p).2 = (enqueue q p).2) ∧
    (∀ (q : QueueDB) (p : String),
      (¬ ∃ r ∈ q.rows, r.payload = p) →
      (((enqueue q p).2).rows.filter
          (fun r => r.payload == p && r.status == "pending")).length = 1 ∧
      (enqueue q p).1 = true) := by
  have hany : ∀ (q : QueueDB) (p : String),
      (q.rows.any (fun r => decide (r.payload = p))) = true ↔
        ∃ r ∈ q.rows, r.payload = p := by
    intro q p
    rw [List.any_eq_true]
    constructor
    · rintro ⟨r, hr, hrp⟩
      exact ⟨r, hr, of_decide_eq_true hrp⟩
    · rintro ⟨r, hr, hrp⟩
      exact ⟨r, hr, by simp [hrp]⟩
  constructor
  · intro q p
    refine ⟨?_, ?_, ?_⟩
    · unfold enqueue
      by_cases h : (q.rows.any (fun r => decide (r.payload = p))) = true
      · rw [if_pos h]
        simpa using (hany q p).mp h
      · rw [if_neg h]
        simpa using fun hex => h ((hany q p).mpr hex)
    · unfold enqueue
      by_cases h : (q.rows.any (fun r => decide (r.payload = p))) = true
      · rw [if_pos h]
        simp only
        rw [if_pos h]
      · rw [if_neg h]
        simp only
        rw [if_pos]
        rw [List.any_eq_true]
        exact ⟨{ id := q.next_id, payload := p, status := "pending" },
               List.mem_append_right _ (List.mem_singleton.mpr rfl),
               by simp⟩
    · unfold enqueue
      by_cases h : (q.rows.any (fun r => decide (r.payload = p))) = true
      · rw [if_pos h]
        simp only
        rw [if_pos h]
      · rw [if_neg h]
        simp only
        rw [if_pos]
        rw [List.any_eq_true]
        exact ⟨{ id := q.next_id, payload := p, status := "pending" },
               List.mem_append_right _ (List.mem_singleton.mpr rfl),
               by simp⟩
  · intro q p hfresh
    have h : (q.rows.any (fun r => decide (r.payload = p))) = false := by
      by_contra hc
      exact hfresh ((hany q p).mp (by revert hc; cases q.rows.any (fun r => decide (r.payload = p)) <;> simp))
    unfold enqueue
    rw [if_neg (by rw [h]; exact Bool.false_ne_true)]
    constructor
    · simp only [List.filter_append]
      have h1 : q.rows.filter (fun r => r.payload == p && r.status == "pending") = [] := by
        rw [List.filter_eq_nil_iff]
        intro r hr
        intro hcond
        apply hfresh
        refine ⟨r, hr, ?_⟩
        have h2 := (Bool.and_eq_true _ _).mp hcond
        exact eq_of_beq h2.1
      rw [h1]
      simp
    · rfl

/-- Witness for `enqueue_unique_payload`: two enqueues of the same payload on
    the empty queue. -/
theorem enqueue_unique_payload_witness :
    ((((enqueue {} "payload-a").2).rows.filter
        (fun r => r.payload == "payload-a" && r.status == "pending")).length = 1 ∧
     (enqueue {} "payload-a").1 = true) ∧
    (enqueue (enqueue {} "payload-a").2 "payload-a").1 = false :=
  ⟨enqueue_unique_payload.2 {} "payload-a" (by decide),
   (enqueue_unique_payload.1 {} "payload-a").2.1⟩

-- ==========================================================================
-- C8: AssistantMsg emptiness
-- ==========================================================================

/--
C8 (counterexample): `AssistantMsg` declares no model validator, so a
message with no text, no tool calls and no structured output passes
construction-time validation — and `is_empty()` returns `True` on it.  The
claim "construction rejects empty assistant messages" is false.
-/
theorem assistant_empty_accepted_cex :
    assistantMsg_validate
        { idempotency_key := "uuid-0001",
          time_created := "2024-01-01T00:00:00Z",
          time_received := "2024-01-01T00:00:00Z",
          id := "2024-01-01_00-00-00_AssistantMsg" } = true ∧
    is_empty
        { idempotency_key := "uuid-0001",
          time_created := "2024-01-01T00:00:00Z",
          time_received := "2024-01-01T00:00:00Z",
          id := "2024-01-01_00-00-00_AssistantMsg" } = true ∧
    ¬ (assistantMsg_validate
        { idempotency_key := "uuid-0001",
          time_created := "2024-01-01T00:00:00Z",
          time_received := "2024-01-01T00:00:00Z",
          id := "2024-01-01_00-00-00_AssistantMsg" } = true →
       is_empty
        { idempotency_key := "uuid-0001",
          time_created := "2024-01-01T00:00:00Z",
          time_received := "2024-01-01T00:00:00Z",
          id := "2024-01-01_00-00-00_AssistantMsg" } = false) := by
  decide

/--
C8 (amended): `is_empty()` returns `True` iff the message has no truthy text
(absent or the empty string), no tool calls, and no truthy structured output
(absent or the empty dict); construction does NOT reject empty assistant
messages — an `AssistantMsg` with none of the three passes validation, and
emptiness is checked by callers (`Agent.get_response`) after construction.
-/
theorem assistant_is_empty_correct :
    (∀ m : AssistantMsgM,
      is_empty m = true ↔
        ((m.text = none ∨ m.text = some "") ∧ m.tool_calls = [] ∧
         (m.st_output = none ∨ m.st_output = some []))) ∧
    (assistantMsg_validate
        { idempotency_key := "uuid-0001",
          time_created := "2024-01-01T00:00:00Z",
          time_received := "2024-01-01T00:00:00Z",
          id := "2024-01-01_00-00-00_AssistantMsg" } = true ∧
     is_empty
        { idempotency_key := "uuid-0001",
          time_created := "2024-01-01T00:00:00Z",
          time_received := "2024-01-01T00:00:00Z",
          id := "2024-01-01_00-00-00_AssistantMsg" } = true) := by
  constructor
  · intro m
    cases htext : m.text with
    | none =>
      cases hst : m.st_output with
      | none =>
        simp [is_empty, strTruthy, dictTruthy, htext, hst, List.isEmpty_iff]
      | some kv =>
        cases kv with
        | nil =>
          simp [is_empty, strTruthy, dictTruthy, htext, hst, List.isEmpty_iff]
        | cons a as =>
          simp [is_empty, strTruthy, dictTruthy, htext, hst, List.isEmpty_iff]
    | some s =>
      cases hst : m.st_output with
      | none =>
        by_cases hs : s = ""
        · simp [is_empty, strTruthy, dictTruthy, htext, hst, hs,
                List.isEmpty_iff,
                (by decide : ("" : String).isEmpty = true)]
        · simp [is_empty, strTruthy, dictTruthy, htext, hst, hs,
                (String.isEmpty_iff s), List.isEmpty_iff]
      | some kv =>
        by_cases hs : s = ""
        · cases kv with
          | nil =>
            simp [is_empty, strTruthy, dictTruthy, htext, hst, hs,
                  List.isEmpty_iff,
                  (by decide : ("" : String).isEmpty = true)]
          | cons a as =>
            simp [is_empty, strTruthy, dictTruthy, htext, hst, hs,
                  List.isEmpty_iff]
        · simp [is_empty, strTruthy, dictTruthy, htext, hst, hs,
                (String.isEmpty_iff s), List.isEmpty_iff]
  · exact ⟨by decide, by decide⟩

-- ==========================================================================
-- C9: outbound text chunking
-- ==========================================================================

theorem chunk_text_of_le {text : List Char} {max_len : Nat}
    (h : text.length ≤ max_len) : chunk_text text max_len = [text] := by
  rw [chunk_text.eq_def, if_pos h]

theorem chunk_text_of_gt {text : List Char} {max_len : Nat}
    (h1 : ¬ text.length ≤ max_len) (h2 : ¬ text.length ≤ 1) :
    chunk_text text max_len =
      chunk_text (text.take (text.length / 2)) max_len ++
      chunk_text (text.drop (text.length / 2)) max_len := by
  rw [chunk_text.eq_def, if_neg h1, if_neg h2]

/--
C9: for every outbound text and every positive limit, `chunk_text` produces
chunks each within the limit whose in-order concatenation is the original
text; a text of 8193 characters is sent by `send_whatsapp_text` as exactly 3
outbound messages, each at most 4096 characters, concatenable to the
original.
-/
theorem chunk_text_spec_thm :
    (∀ (text : List Char) (max_len : Nat), 1 ≤ max_len →
      (∀ c ∈ chunk_text text max_len, c.length ≤ max_len) ∧
      (chunk_text text max_len).flatten = text) ∧
    (∀ text : List Char, text.length = 8193 →
      send_whatsapp_text_bodies text = chunk_text text WA_TEXT_LIMIT ∧
      (send_whatsapp_text_bodies text).length = 3 ∧
      (∀ c ∈ send_whatsapp_text_bodies text, c.length ≤ 4096) ∧
      (send_whatsapp_text_bodies text).flatten = text) := by
  have main : ∀ (text : List Char) (max_len : Nat), 1 ≤ max_len →
      (∀ c ∈ chunk_text text max_len, c.length ≤ max_len) ∧
      (chunk_text text max_len).flatten = text := by
    intro text max_len
    induction text, max_len using chunk_text.induct with
    | case1 text max_len h =>
      intro _
      rw [chunk_text_of_le h]
      refine ⟨?_, by simp⟩
      intro c hc
      rw [List.mem_singleton.mp hc]
      exact h
    | case2 text max_len h1 h2 =>
      intro hm
      omega
    | case3 text max_len h1 h2 ih1 ih2 =>
      intro hm
      rw [chunk_text_of_gt h1 h2]
      obtain ⟨iha1, ihb1⟩ := ih1 hm
      obtain ⟨iha2, ihb2⟩ := ih2 hm
      constructor
      · intro c hc
        rcases List.mem_append.mp hc with h | h
        · exact iha1 c h
        · exact iha2 c h
      · rw [List.flatten_append, ihb1, ihb2, List.take_append_drop]
  refine ⟨main, ?_⟩
  intro text hlen
  have hW : WA_TEXT_LIMIT = 4096 := rfl
  have hbodies : send_whatsapp_text_bodies text = chunk_text text WA_TEXT_LIMIT :=
    rfl
  have e1 : text.length / 2 = 4096 := by rw [hlen]
  have htake : (text.take 4096).length = 4096 := by
    rw [List.length_take]; omega
  have hdrop : (text.drop 4096).length = 4097 := by
    rw [List.length_drop]; omega
  have step1 :
      chunk_text text WA_TEXT_LIMIT =
        chunk_text (text.take (text.length / 2)) WA_TEXT_LIMIT ++
        chunk_text (text.drop (text.length / 2)) WA_TEXT_LIMIT :=
    chunk_text_of_gt (by omega) (by omega)
  rw [e1] at step1
  have step2 : chunk_text (text.take 4096) WA_TEXT_LIMIT = [text.take 4096] :=
    chunk_text_of_le (by omega)
  have e2 : (text.drop 4096).length / 2 = 2048 := by rw [hdrop]
  have step3 :
      chunk_text (text.drop 4096) WA_TEXT_LIMIT =
        chunk_text ((text.drop 4096).take ((text.drop 4096).length / 2))
            WA_TEXT_LIMIT ++
        chunk_text ((text.drop 4096).drop ((text.drop 4096).length / 2))
            WA_TEXT_LIMIT :=
    chunk_text_of_gt (by omega) (by omega)
  rw [e2] at step3
  have htake2 : ((text.drop 4096).take 2048).length = 2048 := by
    rw [List.length_take]; omega
  have hdrop2 : ((text.drop 4096).drop 2048).length = 2049 := by
    rw [List.length_drop]; omega
  have step4 :
      chunk_text ((text.drop 4096).take 2048) WA_TEXT_LIMIT =
        [(text.drop 4096).take 2048] :=
    chunk_text_of_le (by omega)
  have step5 :
      chunk_text ((text.drop 4096).drop 2048) WA_TEXT_LIMIT =
        [(text.drop 4096).drop 2048] :=
    chunk_text_of_le (by omega)
  have hlen3 : (chunk_text text WA_TEXT_LIMIT).length = 3 := by
    rw [step1, step2, step3, step4, step5]
    rfl
  obtain ⟨hbound, hjoin⟩ := main text WA_TEXT_LIMIT (by omega)
  exact ⟨hbodies, by rw [hbodies, hlen3], fun c hc => hbound c hc, hjoin⟩

/-- Witness for `chunk_text_spec_thm`: a concrete 8193-character text is
    chunked into 3 messages, and a short text is a single chunk equal to its
    own concatenation. -/
theorem chunk_text_spec_witness :
    (send_whatsapp_text_bodies (List.replicate 8193 'a')).length = 3 ∧
    (chunk_text ['h', 'i'] 4096).flatten = ['h', 'i'] :=
  ⟨(chunk_text_spec_thm.2 (List.replicate 8193 'a')
      (List.length_replicate 8193 'a')).2.1,
   (chunk_text_spec_thm.1 ['h', 'i'] 4096 (by norm_num)).2⟩

-- ==========================================================================
-- C6: context_build
-- ==========================================================================

theorem keyLe_total (a b : Option Nat × Option Nat) :
    keyLe a b = true ∨ keyLe b a = true := by
  obtain ⟨a1, a2⟩ := a
  obtain ⟨b1, b2⟩ := b
  rcases a1 with _ | x <;> rcases b1 with _ | y <;>
    rcases a2 with _ | u <;> rcases b2 with _ | v <;>
      simp only [keyLe] <;>
      first
        | omega
        | (simp; omega)
        | simp

theorem keyLe_trans (a b c : Option Nat × Option Nat)
    (hab : keyLe a b = true) (hbc : keyLe b c = true) : keyLe a c = true := by
  obtain ⟨a1, a2⟩ := a
  obtain ⟨b1, b2⟩ := b
  obtain ⟨c1, c2⟩ := c
  rcases a1 with _ | x <;> rcases b1 with _ | y <;> rcases c1 with _ | z <;>
    rcases a2 with _ | u <;> rcases b2 with _ | v <;> rcases c2 with _ | w <;>
      simp only [keyLe] at * <;>
      first
        | omega
        | (simp_all; omega)
        | simp_all

instance instMsgLeTotal : IsTotal StoredMsg msgLe :=
  ⟨fun a b => keyLe_total (a.time_created, a.time_received)
      (b.time_created, b.time_received)⟩

instance instMsgLeTrans : IsTrans StoredMsg msgLe :=
  ⟨fun _ _ _ hab hbc => keyLe_trans _ _ _ hab hbc⟩

theorem read_all_ok (docs : List (String × MsgDoc)) :
    ∀ ids : List String,
      (∀ i ∈ ids, (message_read docs i).isOk = true) →
      read_all docs ids = .ok (ids.filterMap (readOpt docs)) := by
  intro ids
  induction ids with
  | nil => intro _; rfl
  | cons i is ih =>
    intro h
    have hi := h i (List.mem_cons_self i is)
    have hrest := ih (fun j hj => h j (List.mem_cons_of_mem i hj))
    cases hv : message_read docs i with
    | error e => rw [hv] at hi; cases hi
    | ok v =>
      have hro : readOpt docs i = v := by unfold readOpt; rw [hv]
      cases v with
      | none =>
        simp only [read_all, hv, hrest, List.filterMap_cons, hro]
      | some m =>
        simp only [read_all, hv, hrest, List.filterMap_cons, hro]

/--
C6 (counterexample): a stored message whose `basemodel` tag names a
non-class attribute of the message module (here the function `load_media`)
is not dropped: `getattr` resolves the tag and `issubclass` raises
`TypeError`, so `context_build` fails instead of skipping the message.
-/
theorem context_build_unknown_tag_cex :
    context_build { case_id := 1, message_ids := ["m1"] }
        [("m1", { basemodel := some "load_media",
                  msg := { basemodel := "load_media",
                           idempotency_key := "k1",
                           time_created := some 0, time_received := some 0,
                           id := "m1" } })] true
      = .error .typeError ∧
    context_build { case_id := 1, message_ids := ["m1"] }
        [("m1", { basemodel := some "load_media",
                  msg := { basemodel := "load_media",
                           idempotency_key := "k1",
                           time_created := some 0, time_received := some 0,
                           id := "m1" } })] true
      ≠ .ok [] := by
  decide

/--
C6 (amended): `context_build` reads each message referenced in
`manifest.message_ids`, drops those that are missing or whose stored
`basemodel` tag does not resolve to a pydantic model class (absent module
attribute, or an attribute that is a class but not a `BaseModel` subclass);
a tag naming a non-class module attribute raises `TypeError`, and a tag
naming a non-message model class also fails the build.  When every
referenced read succeeds AND every kept message carries parseable
`time_created` and `time_received` timestamps (the sort raises `TypeError`
when it compares an unparseable timestamp with a parseable one, so nothing
is asserted about such contexts), the kept messages are sorted stably by
`(time_created, time_received)` and, when `truncate` is true, only the last
`MAX_CONTEXT_LEN` (20) are kept: the result is a sorted suffix of the
sorted readable list with length `min 20 (number of readable messages)` —
for 25 readable messages, the 20 most recent by that sort key.
-/
theorem context_build_correct :
    (∀ (manifest : CaseManifest) (docs : List (String × MsgDoc)),
      (∀ i ∈ manifest.message_ids, (message_read docs i).isOk = true) →
      (∀ m ∈ context_readable manifest docs,
        m.time_created.isSome = true ∧ m.time_received.isSome = true) →
      context_build manifest docs false = .ok (context_sorted manifest docs) ∧
      (context_sorted manifest docs).Perm (context_readable manifest docs) ∧
      List.Sorted msgLe (context_sorted manifest docs) ∧
      context_build manifest docs true =
        .ok ((context_sorted manifest docs).drop
          ((context_sorted manifest docs).length - MAX_CONTEXT_LEN)) ∧
      (∀ res, context_build manifest docs true = .ok res →
        res.length =
          min MAX_CONTEXT_LEN (context_readable manifest docs).length ∧
        List.Sorted msgLe res ∧
        res <:+ context_sorted manifest docs)) ∧
    (∀ (docs : List (String × MsgDoc)) (i : String),
      getA docs i = none → message_read docs i = .ok none) ∧
    (∀ (docs : List (String × MsgDoc)) (i : String) (d : MsgDoc)
       (tag : String),
      getA docs i = some d → d.basemodel = some tag → tag ≠ "" →
      tagKind tag = .dropped → message_read docs i = .ok none) := by
  refine ⟨?_, ?_, ?_⟩
  · intro manifest docs h hparse
    have hread := read_all_ok docs manifest.message_ids h
    have hperm : (context_sorted manifest docs).Perm
        (context_readable manifest docs) :=
      List.perm_insertionSort msgLe (context_readable manifest docs)
    have hsorted : List.Sorted msgLe (context_sorted manifest docs) :=
      List.sorted_insertionSort msgLe (context_readable manifest docs)
    have huntrunc : context_build manifest docs false =
        .ok (context_sorted manifest docs) := by
      unfold context_build
      rw [hread]
      simp [context_sorted, context_readable]
    have htrunc : context_build manifest docs true =
        .ok ((context_sorted manifest docs).drop
          ((context_sorted manifest docs).length - MAX_CONTEXT_LEN)) := by
      unfold context_build
      rw [hread]
      by_cases hlen :
          (List.insertionSort msgLe
            (manifest.message_ids.filterMap (readOpt docs))).length >
            MAX_CONTEXT_LEN
      · simp only [Bool.true_and, context_sorted, context_readable]
        rw [if_pos (by simpa using hlen)]
      · simp only [Bool.true_and, context_sorted, context_readable]
        rw [if_neg (by simpa using hlen)]
        have hz :
            (List.insertionSort msgLe
              (manifest.message_ids.filterMap (readOpt docs))).length -
              MAX_CONTEXT_LEN = 0 := by omega
        rw [hz, List.drop_zero]
    refine ⟨huntrunc, hperm, hsorted, htrunc, ?_⟩
    intro res hres
    rw [htrunc] at hres
    have hreseq : res = (context_sorted manifest docs).drop
        ((context_sorted manifest docs).length - MAX_CONTEXT_LEN) :=
      (Except.ok.inj hres).symm
    have hlensort : (context_sorted manifest docs).length =
        (context_readable manifest docs).length := hperm.length_eq
    refine ⟨?_, ?_, ?_⟩
    · rw [hreseq, List.length_drop, hlensort]
      omega
    · rw [hreseq]
      exact List.Pairwise.sublist (List.drop_sublist _ _) hsorted
    · rw [hreseq]
      exact List.drop_suffix _ _
  · intro docs i hget
    unfold message_read
    rw [hget]
  · intro docs i d tag hget htag hne hkind
    unfold message_read
    simp only [hget, htag, hkind, if_neg hne]

/-- Witness for `context_build_correct`: a manifest referencing 25 readable
    messages, all with parseable timestamps, yields the last 20 of the sorted
    readable list, and a document with a tag that is not a module attribute
    is dropped. -/
theorem context_build_correct_witness :
    (context_build exampleManifest25 exampleDocs25 true =
      .ok ((context_sorted exampleManifest25 exampleDocs25).drop
        ((context_sorted exampleManifest25 exampleDocs25).length -
          MAX_CONTEXT_LEN)) ∧
     (context_readable exampleManifest25 exampleDocs25).length = 25) ∧
    message_read
      [("mx",
        { basemodel := some "NoSuchClass",
          msg := { basemodel := "NoSuchClass", idempotency_key := "kx",
                   time_created := some 0, time_received := some 0,
                   id := "mx" } })] "mx" = .ok none :=
  ⟨⟨((context_build_correct.1 exampleManifest25 exampleDocs25
        (by decide) (by decide)).2.2.2.1),
    by decide⟩,
   context_build_correct.2.2
     [("mx",
       { basemodel := some "NoSuchClass",
         msg := { basemodel := "NoSuchClass", idempotency_key := "kx",
                  time_created := some 0, time_received := some 0,
                  id := "mx" } })] "mx"
     { basemodel := some "NoSuchClass",
       msg := { basemodel := "NoSuchClass", idempotency_key := "kx",
                time_created := some 0, time_received := some 0,
                id := "mx" } }
     "NoSuchClass" (by decide) rfl (by decide) (by decide)⟩

-- ==========================================================================
-- C7: user directory lock
-- ==========================================================================

theorem earliest?_mem : ∀ (l : List LeaseObj) (e : LeaseObj),
    earliest? l = some e → e ∈ l := by
  intro l
  induction l with
  | nil => intro e h; cases h
  | cons o os ih =>
    intro e h
    cases hos : earliest? os with
    | none =>
      have hh : some o = some e := by
        rw [← h]
        simp only [earliest?, hos]
      exact List.mem_cons.mpr (Or.inl (Option.some.inj hh).symm)
    | some f =>
      by_cases hlt : f.last_modified < o.last_modified
      · have hh : some f = some e := by
          rw [← h]
          simp only [earliest?, hos, if_pos hlt]
        exact List.mem_cons_of_mem o
          (ih e (by rw [hos, Option.some.inj hh]))
      · have hh : some o = some e := by
          rw [← h]
          simp only [earliest?, hos, if_neg hlt]
        exact List.mem_cons.mpr (Or.inl (Option.some.inj hh).symm)

theorem deleteKey_mem {s : LockStore} {k : String} {o : LeaseObj}
    (h : o ∈ (deleteKey s k).objs) : o ∈ s.objs ∧ o.key ≠ k := by
  have := List.mem_filter.mp h
  exact ⟨this.1, of_decide_eq_true this.2⟩

theorem lockCleanup_inv (cfg : LockCfg) (s : LockStore) (now : Nat)
    (key : String) (start : Nat)
    (hinv : ∀ o ∈ s.objs, o.key = key → o.last_modified = start)
    (hmem : (⟨key, start⟩ : LeaseObj) ∈ s.objs)
    (hns : ¬ now - start > cfg.ttl + cfg.staleMargin) :
    (⟨key, start⟩ : LeaseObj) ∈ (lockCleanup cfg s now).objs ∧
    (∀ o ∈ (lockCleanup cfg s now).objs,
      o.key = key → o.last_modified = start) := by
  cases he : earliest? s.objs with
  | none =>
    have hcl : lockCleanup cfg s now = s := by
      unfold lockCleanup
      rw [he]
    rw [hcl]
    exact ⟨hmem, hinv⟩
  | some e =>
    by_cases hstale : now - e.last_modified > cfg.ttl + cfg.staleMargin
    · have hcl : lockCleanup cfg s now = deleteKey s e.key := by
        unfold lockCleanup
        rw [he]
        simp only [if_pos hstale]
      rw [hcl]
      have hek : e.key ≠ key := by
        intro hk
        have hlm : e.last_modified = start :=
          hinv e (earliest?_mem s.objs e he) hk
        rw [hlm] at hstale
        exact hns hstale
      constructor
      · exact List.mem_filter.mpr ⟨hmem, decide_eq_true (Ne.symm hek)⟩
      · intro o ho hk
        exact hinv o (deleteKey_mem ho).1 hk
    · have hcl : lockCleanup cfg s now = s := by
        unfold lockCleanup
        rw [he]
        simp only [if_neg hstale]
      rw [hcl]
      exact ⟨hmem, hinv⟩

theorem acquireLoop_false_mem (cfg : LockCfg) (key : String) (start : Nat)
    (hcfg : cfg.timeout + cfg.poll ≤ cfg.ttl + cfg.staleMargin) :
    ∀ (fuel : Nat) (s : LockStore) (now : Nat) (s' : LockStore),
      (∀ o ∈ s.objs, o.key = key → o.last_modified = start) →
      (⟨key, start⟩ : LeaseObj) ∈ s.objs →
      now - start ≤ cfg.timeout + cfg.poll →
      acquireLoop cfg key start fuel s now = (false, s') →
      (⟨key, start⟩ : LeaseObj) ∈ s'.objs := by
  intro fuel
  induction fuel with
  | zero =>
    intro s now s' hinv hmem htime hrun
    unfold acquireLoop at hrun
    have hs : s = s' := congrArg Prod.snd hrun
    rw [← hs]
    exact hmem
  | succ fuel ih =>
    intro s now s' hinv hmem htime hrun
    have hns : ¬ now - start > cfg.ttl + cfg.staleMargin := by omega
    obtain ⟨hmem1, hinv1⟩ := lockCleanup_inv cfg s now key start hinv hmem hns
    cases hw : earliest? (lockCleanup cfg s now).objs with
    | none =>
      have hstep : acquireLoop cfg key start (fuel + 1) s now =
          (if now - start > cfg.timeout then (false, lockCleanup cfg s now)
           else acquireLoop cfg key start fuel (lockCleanup cfg s now)
             (now + cfg.poll)) := by
        simp only [acquireLoop]
        rw [hw]
      rw [hstep] at hrun
      by_cases hnt : now - start > cfg.timeout
      · rw [if_pos hnt] at hrun
        have hs : lockCleanup cfg s now = s' := congrArg Prod.snd hrun
        rw [← hs]
        exact hmem1
      · rw [if_neg hnt] at hrun
        exact ih (lockCleanup cfg s now) (now + cfg.poll) s' hinv1 hmem1
          (by omega) hrun
    | some w =>
      have hstep : acquireLoop cfg key start (fuel + 1) s now =
          (if w.key = key then (true, lockCleanup cfg s now)
           else if now - start > cfg.timeout then (false, lockCleanup cfg s now)
           else acquireLoop cfg key start fuel (lockCleanup cfg s now)
             (now + cfg.poll)) := by
        simp only [acquireLoop]
        rw [hw]
      rw [hstep] at hrun
      by_cases hwk : w.key = key
      · rw [if_pos hwk] at hrun
        exact absurd (congrArg Prod.fst hrun) (by simp)
      · rw [if_neg hwk] at hrun
        by_cases hnt : now - start > cfg.timeout
        · rw [if_pos hnt] at hrun
          have hs : lockCleanup cfg s now = s' := congrArg Prod.snd hrun
          rw [← hs]
          exact hmem1
        · rw [if_neg hnt] at hrun
          exact ih (lockCleanup cfg s now) (now + cfg.poll) s' hinv1 hmem1
            (by omega) hrun

/--
C7 (counterexample): a contender that times out acquiring the lock leaves
its lease under `locks/`: `__enter__` raises `TimeoutError` before the
`with` body is entered, so `__exit__` never runs — and `__exit__` only
deletes the lease when `acquired` is set.  With a competitor lease in place,
the contender "mine" times out and its lease object remains (well inside the
TTL window: the run lasts 250 time units, the TTL is 1000).
-/
theorem lock_timeout_lease_remains_cex :
    withLock (ε := Unit)
        { timeout := 200, poll := 50, ttl := 1000, staleMargin := 1000 }
        "mine" ⟨[⟨"other", 0⟩]⟩ 10 (fun st => (none, st)) =
      .timeoutErr ⟨[⟨"other", 0⟩, ⟨"mine", 10⟩]⟩ ∧
    (⟨"mine", 10⟩ : LeaseObj) ∈
      ([⟨"other", 0⟩, ⟨"mine", 10⟩] : List LeaseObj) := by
  decide

/--
C7 (amended): the lock releases its lease when it was ACQUIRED — on body
success and on an exception inside the critical section, `__exit__` deletes
the owner's lease, so no lease object of that contender remains.  On an
acquisition timeout, however, the lease written at the start of `__enter__`
is NOT released: provided the configured timeout (plus one poll) does not
exceed the TTL-plus-margin stale window (true of the defaults, 10 s vs
31 s), the contender's lease is still under `locks/` when `TimeoutError`
propagates, and it disappears only when another contender evicts it as
stale.
-/
theorem lock_release_paths :
    (∀ (ε : Type) (cfg : LockCfg) (key : String) (s : LockStore) (now : Nat)
       (body : LockStore → Option ε × LockStore) (s2 : LockStore),
      withLock cfg key s now body = .ok s2 →
      ∀ o ∈ s2.objs, o.key ≠ key) ∧
    (∀ (ε : Type) (cfg : LockCfg) (key : String) (s : LockStore) (now : Nat)
       (body : LockStore → Option ε × LockStore) (e : ε) (s2 : LockStore),
      withLock cfg key s now body = .bodyErr e s2 →
      ∀ o ∈ s2.objs, o.key ≠ key) ∧
    (∀ (ε : Type) (cfg : LockCfg) (key : String) (s : LockStore) (now : Nat)
       (body : LockStore → Option ε × LockStore) (s1 : LockStore),
      cfg.timeout + cfg.poll ≤ cfg.ttl + cfg.staleMargin →
      withLock cfg key s now body = .timeoutErr s1 →
      (⟨key, now⟩ : LeaseObj) ∈ s1.objs) := by
  refine ⟨?_, ?_, ?_⟩
  · intro ε cfg key s now body s2 hrun o ho
    unfold withLock at hrun
    cases henter : lock_enter cfg key s now with
    | mk b st =>
      rw [henter] at hrun
      cases b with
      | false => exact absurd hrun (by simp)
      | true =>
        have hrun2 : (match body st with
            | (none, s2) => LockOutcome.ok (deleteKey s2 key)
            | (some e, s2) => LockOutcome.bodyErr e (deleteKey s2 key)) =
            LockOutcome.ok s2 := hrun
        cases hb : body st with
        | mk opt st2 =>
          rw [hb] at hrun2
          cases opt with
          | none =>
            have hdel : deleteKey st2 key = s2 := LockOutcome.ok.inj hrun2
            rw [← hdel] at ho
            exact (deleteKey_mem ho).2
          | some e => exact absurd hrun2 (by simp)
  · intro ε cfg key s now body e s2 hrun o ho
    unfold withLock at hrun
    cases henter : lock_enter cfg key s now with
    | mk b st =>
      rw [henter] at hrun
      cases b with
      | false => exact absurd hrun (by simp)
      | true =>
        have hrun2 : (match body st with
            | (none, s2) => LockOutcome.ok (deleteKey s2 key)
            | (some e, s2) => LockOutcome.bodyErr e (deleteKey s2 key)) =
            LockOutcome.bodyErr e s2 := hrun
        cases hb : body st with
        | mk opt st2 =>
          rw [hb] at hrun2
          cases opt with
          | none => exact absurd hrun2 (by simp)
          | some e2 =>
            have heq := LockOutcome.bodyErr.inj hrun2
            rw [← heq.2] at ho
            exact (deleteKey_mem ho).2
  · intro ε cfg key s now body s1 hcfg hrun
    unfold withLock at hrun
    cases henter : lock_enter cfg key s now with
    | mk b st =>
      rw [henter] at hrun
      cases b with
      | true =>
        have hrun2 : (match body st with
            | (none, s2) => LockOutcome.ok (deleteKey s2 key)
            | (some e, s2) => LockOutcome.bodyErr e (deleteKey s2 key)) =
            LockOutcome.timeoutErr s1 := hrun
        cases hb : body st with
        | mk opt st2 =>
          rw [hb] at hrun2
          cases opt with
          | none => exact absurd hrun2 (by simp)
          | some e2 => exact absurd hrun2 (by simp)
      | false =>
        have hst : st = s1 := LockOutcome.timeoutErr.inj hrun
        unfold lock_enter at henter
        have hinv : ∀ o ∈ (s.objs.filter (fun o => o.key ≠ key) ++
            [(⟨key, now⟩ : LeaseObj)]), o.key = key → o.last_modified = now := by
          intro o ho hk
          rcases List.mem_append.mp ho with h | h
          · exact absurd hk (of_decide_eq_true (List.mem_filter.mp h).2)
          · rw [List.mem_singleton.mp h]
        have hmem : (⟨key, now⟩ : LeaseObj) ∈
            (s.objs.filter (fun o => o.key ≠ key) ++
              [(⟨key, now⟩ : LeaseObj)]) :=
          List.mem_append_right _ (List.mem_singleton.mpr rfl)
        have := acquireLoop_false_mem cfg key now hcfg
          (cfg.timeout / cfg.poll + 2)
          ⟨s.objs.filter (fun o => o.key ≠ key) ++ [⟨key, now⟩]⟩
          now st hinv hmem (by omega) henter
        rw [← hst]
        exact this

/-- Witness for `lock_release_paths`: a lone contender acquires and releases
    (body success and body exception), and a contender behind an earlier
    competitor times out with its lease still present. -/
theorem lock_release_paths_witness :
    (∀ o ∈ ([] : List LeaseObj), o.key ≠ "mine") ∧
    (∀ o ∈ ([] : List LeaseObj), o.key ≠ "mine") ∧
    (⟨"mine", 10⟩ : LeaseObj) ∈
      ([⟨"other", 0⟩, ⟨"mine", 10⟩] : List LeaseObj) :=
  ⟨lock_release_paths.1 Unit {} "mine" ⟨[]⟩ 0 (fun st => (none, st)) ⟨[]⟩
     (by decide),
   lock_release_paths.2.1 Unit {} "mine" ⟨[]⟩ 0 (fun st => (some (), st)) ()
     ⟨[]⟩ (by decide),
   lock_release_paths.2.2 Unit
     { timeout := 200, poll := 50, ttl := 1000, staleMargin := 1000 }
     "mine" ⟨[⟨"other", 0⟩]⟩ 10 (fun st => (none, st))
     ⟨[⟨"other", 0⟩, ⟨"mine", 10⟩]⟩ (by decide) (by decide)⟩

/-- Witness for `manifest_append_correct`: the fold consequence at a
    one-message list. -/
theorem manifest_append_correct_witness :
    (appendAll { case_id := 1 }
        [({ basemodel := "UserContentMsg", idempotency_key := "k-w",
            time_created := some 3500000, time_received := none,
            id := "mw" }, 5)]).time_last_message =
      some (truncSec (maxList [3500000])) :=
  manifest_append_correct.2 { case_id := 1 }
    [({ basemodel := "UserContentMsg", idempotency_key := "k-w",
        time_created := some 3500000, time_received := none,
        id := "mw" }, 5)] rfl (by decide)

